import Mathlib

/-!
Verification of the simulated storage stack (virtual disk, bitmap + indexed
allocation file system, LRU buffer cache) of the os-course-design repository.

The Python sources `filesystem.py` and `buffer.py` are shallowly embedded:
* bytes are `List Nat` (each entry one byte value),
* Python `int` fields that can hold `-1` sentinels are `Int`,
* the backing disk file is a pair of a size and a byte function,
* every operation is a pure function from state to state plus result,
* `struct.pack`/`struct.unpack` little-endian fields are explicit
  arithmetic on byte lists; a `struct.error` raised by the source is
  modelled as an explicit exceptional outcome (`PyResult.raised`),
* wall-clock values (`time.time()`) are threaded as an abstract `now : Nat`
  parameter; they never influence control flow in the source,
* Python `str` file names are modelled by their UTF-8 byte sequences
  (`List Nat`); encode/decode is the identity on this representation.
-/

set_option maxRecDepth 100000

/-! ## Constants (filesystem.py lines 19-32) -/

def BLOCK_SIZE : Nat := 64
def TOTAL_BLOCKS : Nat := 1024
def SUPERBLOCK_START : Nat := 0
def BITMAP_START : Nat := 1
def INODE_START : Nat := 3
def DATA_START : Nat := 35
def MAX_INODES : Nat := 32
def MAX_FILENAME : Nat := 20
def DIRECT_BLOCKS : Nat := 10

/-! ## Little-endian field primitives (struct formats h, i, I) -/

/-- Two little-endian bytes of a natural number below 2^16. -/
def le16enc (n : Nat) : List Nat := [n % 256, n / 256 % 256]

/-- Model of `struct.pack` with format `<h`: twos-complement 16-bit
little-endian encoding. `pack` itself demands `-2^15 ≤ k < 2^15`; on that range the encoding is the
two bytes of `k mod 2^16`. -/
def i16enc (k : Int) : List Nat := le16enc (k % 65536).toNat

/-- Model of `struct.unpack` with format `<h`: decode a signed 16-bit little-endian value. -/
def i16dec (b0 b1 : Nat) : Int :=
  let n := b0 + 256 * b1
  if n < 32768 then (n : Int) else (n : Int) - 65536

/-- Decode a signed 16-bit value from the first two entries of a byte list. -/
def i16decL (l : List Nat) : Int := i16dec (l.getD 0 0) (l.getD 1 0)

/-- Model of `struct.pack` with format `<i`: twos-complement 32-bit little-endian encoding. -/
def i32enc (k : Int) : List Nat :=
  let n := (k % 4294967296).toNat
  [n % 256, n / 256 % 256, n / 65536 % 256, n / 16777216 % 256]

/-- Model of `struct.unpack` with format `<i`: decode a signed 32-bit little-endian value. -/
def i32decL (l : List Nat) : Int :=
  let n := l.getD 0 0 + 256 * l.getD 1 0 + 65536 * l.getD 2 0 + 16777216 * l.getD 3 0
  if n < 2147483648 then (n : Int) else (n : Int) - 4294967296

/-- Model of `struct.pack` with format `<I`: unsigned 32-bit little-endian
encoding (`pack` demands `n < 2^32`). -/
def le32enc (n : Nat) : List Nat :=
  [n % 256, n / 256 % 256, n / 65536 % 256, n / 16777216 % 256]

/-- Model of `struct.unpack` with format `<I` on the first four entries of a byte list. -/
def le32decL (l : List Nat) : Nat :=
  l.getD 0 0 + 256 * l.getD 1 0 + 65536 * l.getD 2 0 + 16777216 * l.getD 3 0

/-- `bytes.ljust(n, 0)`: pad a byte list on the right with zeros up to length `n`. -/
def ljust0 (l : List Nat) (n : Nat) : List Nat := l ++ List.replicate (n - l.length) 0

/-- Model of `rstrip` with the zero byte: remove trailing zero bytes. -/
def rstrip0 (l : List Nat) : List Nat := (l.reverse.dropWhile (· == 0)).reverse

/-! ## INode (filesystem.py lines 64-165) -/

structure INode where
  inode_id : Nat
  filename : List Nat
  file_size : Nat
  create_time : Nat
  modify_time : Nat
  permission : Nat
  is_used : Bool
  is_directory : Bool
  ref_count : Int
  direct_blocks : List Int
  indirect_block : Int
  deriving DecidableEq

/-- The dataclass field defaults of `INode` (filesystem.py lines 67-77). -/
def INode.init : INode :=
  { inode_id := 0, filename := [], file_size := 0, create_time := 0
    modify_time := 0, permission := 6, is_used := false, is_directory := false
    ref_count := 0, direct_blocks := List.replicate DIRECT_BLOCKS (-1)
    indirect_block := -1 }

instance : Inhabited INode := ⟨INode.init⟩

/-- `INode.to_bytes` (filesystem.py lines 79-121): serialize to 64 bytes.
The four flag groups are OR-ed over disjoint bit ranges, written here as a
sum; `permission & 0x07` is `permission % 8` and `ref_count & 0x07` on a
Python int is `ref_count mod 8`. -/
def INode.to_bytes (ino : INode) : List Nat :=
  let name_bytes := ljust0 (ino.filename.take MAX_FILENAME) MAX_FILENAME
  let flags := (if ino.is_used then 128 else 0) + (if ino.is_directory then 64 else 0)
    + (ino.permission % 8) * 8 + (ino.ref_count % 8).toNat
  let db := (List.range DIRECT_BLOCKS).map (fun i => ino.direct_blocks.getD i (-1))
  let data := [ino.inode_id % 256] ++ name_bytes ++ le32enc ino.file_size ++ [flags]
    ++ db.flatMap i16enc ++ i16enc ino.indirect_block
  (ljust0 data 64).take 64

/-- `INode.from_bytes` (filesystem.py lines 123-165): parse a 64-byte record.
The slice `data[1:21]`, stripped of trailing zero bytes and decoded, is
modelled on the byte representation of the name; `create_time`/`modify_time` are not serialized
and come back as the dataclass default `0`. -/
def INode.from_bytes (data : List Nat) (inode_id : Nat) : INode :=
  if data.length < 64 then { INode.init with inode_id := inode_id }
  else
    let id_byte := data.getD 0 0
    let filename := rstrip0 ((data.drop 1).take 20)
    let file_size := le32decL ((data.drop 21).take 4)
    let flags := data.getD 25 0
    let is_used := (flags &&& 128) != 0
    let is_directory := (flags &&& 64) != 0
    let permission := (flags >>> 3) &&& 7
    let ref_count : Int := ((flags &&& 7 : Nat) : Int)
    let direct_blocks := (List.range DIRECT_BLOCKS).map
      (fun i => i16decL ((data.drop (26 + 2 * i)).take 2))
    let indirect_block := i16decL ((data.drop 46).take 2)
    { inode_id := if id_byte == inode_id then id_byte else inode_id
      filename := filename, file_size := file_size
      create_time := 0, modify_time := 0
      is_used := is_used, is_directory := is_directory
      permission := permission, ref_count := ref_count
      direct_blocks := direct_blocks, indirect_block := indirect_block }

/-! ## SuperBlock (filesystem.py lines 42-62) -/

structure SuperBlock where
  magic : Nat
  total_blocks : Nat
  block_size : Nat
  free_blocks : Int
  free_inodes : Int
  inode_count : Nat
  data_start : Nat
  deriving DecidableEq

/-- The dataclass field defaults of `SuperBlock` (filesystem.py lines 45-51). -/
def SuperBlock.init : SuperBlock :=
  { magic := 0x4F534653, total_blocks := TOTAL_BLOCKS, block_size := BLOCK_SIZE
    free_blocks := ((TOTAL_BLOCKS - DATA_START : Nat) : Int)
    free_inodes := (MAX_INODES : Int), inode_count := MAX_INODES, data_start := DATA_START }

/-- `SuperBlock.to_bytes` (lines 53-57): seven unsigned little-endian 32-bit
fields padded to one block. The counters stay non-negative at every call
site; `pack` would raise on a negative value. -/
def SuperBlock.to_bytes (sb : SuperBlock) : List Nat :=
  ljust0 (le32enc sb.magic ++ le32enc sb.total_blocks ++ le32enc sb.block_size
    ++ le32enc sb.free_blocks.toNat ++ le32enc sb.free_inodes.toNat
    ++ le32enc sb.inode_count ++ le32enc sb.data_start) BLOCK_SIZE

/-! ## Bitmap (filesystem.py lines 167-242): a byte array, one bit per block -/

structure Bitmap where
  total_blocks : Nat
  bits : List Nat
  deriving DecidableEq

/-- `Bitmap.set_used` (lines 178-183). -/
def Bitmap.set_used (bm : Bitmap) (block_num : Int) : Bitmap :=
  if 0 ≤ block_num ∧ block_num < (bm.total_blocks : Int) then
    let n := block_num.toNat
    { bm with bits := bm.bits.set (n / 8) ((bm.bits.getD (n / 8) 0) ||| (1 <<< (n % 8))) }
  else bm

/-- `Bitmap.set_free` (lines 185-190): the source clears the bit with
`byte &= ~(1 << bit)`; on a byte value this equals masking with
`255 ^^^ (1 <<< bit)`. -/
def Bitmap.set_free (bm : Bitmap) (block_num : Int) : Bitmap :=
  if 0 ≤ block_num ∧ block_num < (bm.total_blocks : Int) then
    let n := block_num.toNat
    { bm with bits := bm.bits.set (n / 8) ((bm.bits.getD (n / 8) 0) &&& (255 ^^^ (1 <<< (n % 8)))) }
  else bm

/-- `Bitmap.is_free` (lines 192-198): out-of-range block numbers read as not
free. -/
def Bitmap.is_free (bm : Bitmap) (block_num : Int) : Bool :=
  if 0 ≤ block_num ∧ block_num < (bm.total_blocks : Int) then
    let n := block_num.toNat
    (bm.bits.getD (n / 8) 0) &&& (1 <<< (n % 8)) == 0
  else false

/-- The `Bitmap` constructor (lines 170-176): an all-zero bit array with the
system region below `DATA_START` marked used. -/
def Bitmap.init (total_blocks : Nat) : Bitmap :=
  (List.range DATA_START).foldl (fun bm i => bm.set_used (i : Int))
    { total_blocks := total_blocks, bits := List.replicate ((total_blocks + 7) / 8) 0 }

/-- `Bitmap.allocate_block` (lines 200-206): first-fit scan of the data
region, `-1` when nothing is free. -/
def Bitmap.allocate_block (bm : Bitmap) : Bitmap × Int :=
  match (List.range' DATA_START (bm.total_blocks - DATA_START)).find?
      (fun i => bm.is_free (i : Int)) with
  | some i => (bm.set_used (i : Int), (i : Int))
  | none => (bm, -1)

/-- Loop body of `Bitmap.allocate_blocks` (lines 208-219): allocate one
block per step; on failure free everything allocated so far and return the
empty list. -/
def Bitmap.allocate_blocks_go (bm : Bitmap) (count : Nat) (acc : List Int) :
    Bitmap × List Int :=
  match count with
  | 0 => (bm, acc)
  | c + 1 =>
    let r := bm.allocate_block
    if r.2 == -1 then
      (acc.foldl (fun b x => b.set_free x) r.1, [])
    else
      Bitmap.allocate_blocks_go r.1 c (acc ++ [r.2])

/-- `Bitmap.allocate_blocks` (lines 208-219). -/
def Bitmap.allocate_blocks (bm : Bitmap) (count : Nat) : Bitmap × List Int :=
  Bitmap.allocate_blocks_go bm count []

/-- `Bitmap.free_blocks_count` (lines 221-227): full rescan of the data
region. -/
def Bitmap.free_blocks_count (bm : Bitmap) : Nat :=
  (List.range' DATA_START (bm.total_blocks - DATA_START)).countP
    (fun (i : Nat) => bm.is_free (i : Int))

/-- `Bitmap.to_bytes` (lines 233-235). -/
def Bitmap.to_bytes (bm : Bitmap) : List Nat := bm.bits

/-! ## IndexBlock (filesystem.py lines 244-258) -/

structure IndexBlock where
  indices : List Int
  deriving DecidableEq

/-- The `IndexBlock` constructor (lines 247-249): sixteen `-1` sentinels. -/
def IndexBlock.init : IndexBlock := ⟨List.replicate 16 (-1)⟩

/-- `IndexBlock.to_bytes` (lines 251-252): `struct.pack` with sixteen format
codes raises `struct.error` unless exactly 16 indices are present (the slice
assignment in `create_file`/`write_file` can extend the index list past 16);
the exceptional case is `none`. -/
def IndexBlock.to_bytes (idx : IndexBlock) : Option (List Nat) :=
  if idx.indices.length = 16 then some (idx.indices.flatMap i32enc) else none

/-- `IndexBlock.from_bytes` (lines 254-258): unpack sixteen signed 32-bit
little-endian indices from `data[:64]`. `unpack` raises when fewer than 64
bytes are available; every call site in the source reads a full block. -/
def IndexBlock.from_bytes (data : List Nat) : IndexBlock :=
  ⟨(List.range 16).map (fun i => i32decL (((data.take 64).drop (4 * i)).take 4))⟩

/-! ## VirtualDisk (filesystem.py lines 262-302): the backing file is a byte
function together with its current size -/

structure Disk where
  size : Nat
  data : Nat → Nat

/-- `VirtualDisk.create_disk` (lines 269-274): `BLOCK_SIZE * TOTAL_BLOCKS`
zero bytes. -/
def Disk.create : Disk := { size := BLOCK_SIZE * TOTAL_BLOCKS, data := fun _ => 0 }

/-- Bytes `[off, off + len)` of the backing file, clipped at end of file
exactly as `file.read` clips. -/
def Disk.readBytes (d : Disk) (off len : Nat) : List Nat :=
  (List.range (min len (d.size - off))).map (fun i => d.data (off + i))

/-- `VirtualDisk.read_block` body for a non-negative block number. -/
def Disk.readBlockN (d : Disk) (n : Nat) : List Nat :=
  d.readBytes (n * BLOCK_SIZE) BLOCK_SIZE

/-- `VirtualDisk.write_block` body for a non-negative block number: truncate
or pad the data to one block, seek (a seek past the end extends the file
with zero bytes) and write. -/
def Disk.writeBlockN (d : Disk) (n : Nat) (bytes : List Nat) : Disk :=
  let off := n * BLOCK_SIZE
  let padded := ljust0 (bytes.take BLOCK_SIZE) BLOCK_SIZE
  { size := max d.size (off + BLOCK_SIZE)
    data := fun i =>
      if off ≤ i ∧ i < off + BLOCK_SIZE then padded.getD (i - off) 0
      else if i < d.size then d.data i else 0 }

/-- `VirtualDisk.read_block` (lines 276-281): `seek` raises `OSError` on a
negative offset (modelled as `none`); past the end of the file `read`
returns the empty byte string without any error. There is no range check
against `total_blocks`. -/
def VirtualDisk.read_block (d : Disk) (block_num : Int) : Option (List Nat) :=
  if block_num < 0 then none else some (d.readBlockN block_num.toNat)

/-- `VirtualDisk.write_block` (lines 283-290): `seek` raises `OSError` on a
negative offset (modelled as `none`); any non-negative block number is
written without a range check, extending the backing file when past its
end. -/
def VirtualDisk.write_block (d : Disk) (block_num : Int) (bytes : List Nat) :
    Option Disk :=
  if block_num < 0 then none else some (d.writeBlockN block_num.toNat bytes)

/-! ## FileSystem (filesystem.py lines 306-800) -/

structure FSState where
  superblock : SuperBlock
  bitmap : Bitmap
  inodes : List INode
  disk : Disk

/-- Outcome of a Python method that either returns a `(bool, str)` pair or
raises an exception. -/
inductive PyResult where
  | ret (ok : Bool) (msg : String)
  | raised
  deriving DecidableEq

/-- Render a byte-sequence filename inside a message (names in this
development are ASCII). -/
def bytesToString (l : List Nat) : String := String.mk (l.map Char.ofNat)

/-- Python slice assignment `l[:new.length] = new`: replace the first
`new.length` entries, extending the list when `new` is longer than `l`. -/
def listAssignPrefix (l new : List Int) : List Int := new ++ l.drop new.length

/-- `FileSystem._save_inodes` (lines 377-385): inode `i` occupies block
`INODE_START + i`. -/
def FSState.save_inodes (fs : FSState) : FSState :=
  { fs with disk := ((List.range MAX_INODES).foldl
      (fun d i => d.writeBlockN (INODE_START + i) ((fs.inodes.getD i INode.init).to_bytes))
      fs.disk) }

/-- `FileSystem._save_bitmap` (lines 396-402): two 64-byte slices of the bit
array. -/
def FSState.save_bitmap (fs : FSState) : FSState :=
  { fs with disk := ((List.range 2).foldl
      (fun d i => d.writeBlockN (BITMAP_START + i)
        ((fs.bitmap.to_bytes.drop (i * BLOCK_SIZE)).take BLOCK_SIZE)) fs.disk) }

/-- Writing the superblock back to block 0, done at the end of every
mutating operation (lines 496, 690, 733). -/
def FSState.save_superblock (fs : FSState) : FSState :=
  { fs with disk := fs.disk.writeBlockN SUPERBLOCK_START fs.superblock.to_bytes }

/-- `FileSystem.format_disk` (lines 317-342): fresh disk, superblock,
bitmap and inode table. -/
def FSState.format : FSState :=
  let fs0 : FSState :=
    { superblock := SuperBlock.init, bitmap := Bitmap.init TOTAL_BLOCKS
      inodes := (List.range MAX_INODES).map (fun i => { INode.init with inode_id := i })
      disk := Disk.create }
  let fs1 := fs0.save_superblock
  (fs1.save_bitmap).save_inodes

/-- `FileSystem._find_inode` (lines 762-767), returning the index of the
first used inode carrying the filename. -/
def FSState.find_inode_idx (fs : FSState) (filename : List Nat) : Option Nat :=
  fs.inodes.findIdx? (fun ino => ino.is_used && ino.filename == filename)

/-- `FileSystem._allocate_inode` (lines 404-414): first unused slot in id
order; marks it used, stamps both times, decrements the free-inode counter.
`None` when every slot is used. -/
def FSState.allocate_inode (fs : FSState) (now : Nat) : Option (FSState × Nat) :=
  match fs.inodes.findIdx? (fun ino => !ino.is_used) with
  | some i =>
    let ino := fs.inodes.getD i INode.init
    let ino2 := { ino with
      is_used := true
      inode_id := i
      create_time := now
      modify_time := now }
    some ({ fs with
      inodes := fs.inodes.set i ino2
      superblock := { fs.superblock with free_inodes := fs.superblock.free_inodes - 1 } },
      i)
  | none => none

/-- Content write loop shared by `create_file` (lines 480-484) and
`write_file` (lines 676-680): block `i` of the list receives byte slice
`[i*BLOCK_SIZE, (i+1)*BLOCK_SIZE)` of the content (`write_block` pads short
slices with zeros). Allocator results are non-negative. -/
def writeContentBlocks (d : Disk) (all_blocks : List Int) (content : List Nat) : Disk :=
  (all_blocks.enum).foldl
    (fun dd p => dd.writeBlockN p.2.toNat ((content.drop (p.1 * BLOCK_SIZE)).take BLOCK_SIZE))
    d

/-- Shared tail of `create_file` (lines 479-498): write the content blocks,
fill in the inode metadata, persist inodes, bitmap and superblock. -/
def FSState.finish_create (fs : FSState) (i : Nat) (filename content : List Nat)
    (permission : Nat) (all_blocks : List Int) : FSState × PyResult :=
  let fs1 := { fs with disk := writeContentBlocks fs.disk all_blocks content }
  let ino := fs1.inodes.getD i INode.init
  let ino2 := { ino with
    filename := filename.take MAX_FILENAME
    file_size := content.length
    permission := permission
    ref_count := 0 }
  let fs2 := { fs1 with inodes := fs1.inodes.set i ino2 }
  let fs3 := (fs2.save_inodes).save_bitmap
  let fs4 := { fs3 with superblock := ({ fs3.superblock with
    free_blocks := (fs3.bitmap.free_blocks_count : Int) }) }
  let fs5 := fs4.save_superblock
  (fs5, .ret true ("文件 '" ++ bytesToString filename ++ "' 创建成功，占用 "
    ++ toString all_blocks.length ++ " 个块"))

/-- `FileSystem.create_file` (lines 416-498). The allocated inode object is
mutated in place by the source, so every early failure return keeps the
mutations already made (the inode stays marked used); `IndexBlock.to_bytes`
raising `struct.error` for content beyond the 26-block ceiling surfaces as
`PyResult.raised` with the in-memory state mutated so far. -/
def FSState.create_file (fs : FSState) (filename content : List Nat) (permission : Nat)
    (now : Nat) : FSState × PyResult :=
  if fs.inodes.any (fun ino => ino.is_used && ino.filename == filename) then
    (fs, .ret false ("文件 '" ++ bytesToString filename ++ "' 已存在"))
  else
    match fs.allocate_inode now with
    | none => (fs, .ret false "iNode已满，无法创建文件")
    | some (fs1, i) =>
      let bn0 := (content.length + BLOCK_SIZE - 1) / BLOCK_SIZE
      let bn1 := if bn0 = 0 then 1 else bn0
      let blocks_needed := if bn1 > DIRECT_BLOCKS then bn1 + 1 else bn1
      if blocks_needed > DIRECT_BLOCKS + 1 then
        let r1 := fs1.bitmap.allocate_blocks DIRECT_BLOCKS
        let fs2 := { fs1 with bitmap := r1.1 }
        if r1.2.length < DIRECT_BLOCKS then
          (fs2, .ret false "空间不足")
        else
          let r2 := fs2.bitmap.allocate_block
          let fs3 := { fs2 with bitmap := r2.1 }
          if r2.2 == -1 then
            ({ fs3 with bitmap := r1.2.foldl (fun b x => b.set_free x) fs3.bitmap },
              .ret false "空间不足")
          else
            let r3 := fs3.bitmap.allocate_blocks (blocks_needed - DIRECT_BLOCKS - 1)
            let fs4 := { fs3 with bitmap := r3.1 }
            if r3.2.length < blocks_needed - DIRECT_BLOCKS - 1 then
              ({ fs4 with bitmap := ((r1.2 ++ [r2.2]).foldl (fun b x => b.set_free x) fs4.bitmap) },
                .ret false "空间不足")
            else
              let ino := fs4.inodes.getD i INode.init
              let ino2 := { ino with
                direct_blocks := r1.2
                indirect_block := r2.2 }
              let fs5 := { fs4 with inodes := fs4.inodes.set i ino2 }
              let idx := IndexBlock.mk (listAssignPrefix IndexBlock.init.indices r3.2)
              match idx.to_bytes with
              | none => (fs5, .raised)
              | some idxbytes =>
                let fs6 := { fs5 with disk := fs5.disk.writeBlockN r2.2.toNat idxbytes }
                fs6.finish_create i filename content permission (r1.2 ++ r3.2)
      else
        let r1 := fs1.bitmap.allocate_blocks blocks_needed
        let fs2 := { fs1 with bitmap := r1.1 }
        if r1.2.length < blocks_needed then
          (fs2, .ret false "空间不足")
        else
          let ino := fs2.inodes.getD i INode.init
          let ino2 := { ino with
            direct_blocks := r1.2 ++ List.replicate (DIRECT_BLOCKS - r1.2.length) (-1) }
          let fs3 := { fs2 with inodes := fs2.inodes.set i ino2 }
          fs3.finish_create i filename content permission r1.2

/-- Shared tail of `write_file` (lines 675-692): write the content blocks,
update size and modify time, persist inodes, bitmap and superblock. -/
def FSState.finish_write (fs : FSState) (i : Nat) (filename content : List Nat)
    (now : Nat) (all_blocks : List Int) : FSState × PyResult :=
  let fs1 := { fs with disk := writeContentBlocks fs.disk all_blocks content }
  let ino := fs1.inodes.getD i INode.init
  let ino2 := { ino with
    file_size := content.length
    modify_time := now }
  let fs2 := { fs1 with inodes := fs1.inodes.set i ino2 }
  let fs3 := (fs2.save_inodes).save_bitmap
  let fs4 := { fs3 with superblock := ({ fs3.superblock with
    free_blocks := (fs3.bitmap.free_blocks_count : Int) }) }
  let fs5 := fs4.save_superblock
  (fs5, .ret true ("文件 '" ++ bytesToString filename ++ "' 写入成功，大小: "
    ++ toString content.length ++ " 字节，占用 " ++ toString all_blocks.length ++ " 块"))

/-- `FileSystem.write_file` (lines 583-692): overwrite a whole file,
shrinking or growing its block list. A write of the rebuilt index block can
raise `struct.error` exactly as in `create_file` (more than 16 indirect
indices); writing to a negative indirect block number would raise `OSError`
in the source — both surface as `PyResult.raised`. -/
def FSState.write_file (fs : FSState) (filename content : List Nat) (now : Nat) :
    FSState × PyResult :=
  match fs.find_inode_idx filename with
  | none => (fs, .ret false ("文件 '" ++ bytesToString filename ++ "' 不存在"))
  | some i =>
    let ino := fs.inodes.getD i INode.init
    if ino.permission &&& 2 == 0 then
      (fs, .ret false "没有写权限")
    else if 0 < ino.ref_count then
      (fs, .ret false ("文件 '" ++ bytesToString filename ++ "' 正在被使用"))
    else
      let nb0 := (content.length + BLOCK_SIZE - 1) / BLOCK_SIZE
      let new_blocks_needed := if nb0 = 0 then 1 else nb0
      let old_direct := ino.direct_blocks.filter (fun b => decide (0 ≤ b))
      let old_indirect_block := ino.indirect_block
      let old_blocks :=
        if 0 ≤ old_indirect_block then
          old_direct ++ ((IndexBlock.from_bytes
            (fs.disk.readBlockN old_indirect_block.toNat)).indices.filter
              (fun b => decide (0 ≤ b)))
        else old_direct
      let old_count := old_blocks.length
      if new_blocks_needed ≤ old_count then
        let blocks_to_use := old_blocks.take new_blocks_needed
        let blocks_to_free := old_blocks.drop new_blocks_needed
        let bm1 := blocks_to_free.foldl (fun b x => b.set_free x) fs.bitmap
        let dropInd := new_blocks_needed ≤ DIRECT_BLOCKS ∧ 0 ≤ old_indirect_block
        let bm2 := if dropInd then bm1.set_free old_indirect_block else bm1
        let newInd : Int := if dropInd then -1 else old_indirect_block
        let newDirect := blocks_to_use.take DIRECT_BLOCKS
          ++ List.replicate (DIRECT_BLOCKS - blocks_to_use.length) (-1)
        let ino2 := { ino with
          direct_blocks := newDirect
          indirect_block := newInd }
        let fs1 := { fs with
          bitmap := bm2
          inodes := fs.inodes.set i ino2 }
        if DIRECT_BLOCKS < new_blocks_needed then
          let idx := IndexBlock.mk (listAssignPrefix IndexBlock.init.indices
            (blocks_to_use.drop DIRECT_BLOCKS))
          match idx.to_bytes with
          | none => (fs1, .raised)
          | some idxbytes =>
            if newInd < 0 then (fs1, .raised)
            else
              let fs2 := { fs1 with disk := fs1.disk.writeBlockN newInd.toNat idxbytes }
              fs2.finish_write i filename content now blocks_to_use
        else
          fs1.finish_write i filename content now blocks_to_use
      else
        let extra0 := new_blocks_needed - old_count
        let need_new_indirect := DIRECT_BLOCKS < new_blocks_needed ∧ old_indirect_block < 0
        let extra_needed := if need_new_indirect then extra0 + 1 else extra0
        let r1 := fs.bitmap.allocate_blocks extra_needed
        let fs1 := { fs with bitmap := r1.1 }
        if r1.2.length < extra_needed then
          ({ fs1 with bitmap := (r1.2.foldl (fun b x => b.set_free x) fs1.bitmap) },
            .ret false "磁盘空间不足")
        else
          let newInd : Int := if need_new_indirect then r1.2.headD (-1) else old_indirect_block
          let new_blocks := if need_new_indirect then r1.2.drop 1 else r1.2
          let all_blocks := old_blocks ++ new_blocks
          let newDirect := all_blocks.take DIRECT_BLOCKS
            ++ List.replicate (DIRECT_BLOCKS - all_blocks.length) (-1)
          let ino2 := { ino with
            direct_blocks := newDirect
            indirect_block := newInd }
          let fs2 := { fs1 with inodes := fs1.inodes.set i ino2 }
          if DIRECT_BLOCKS < new_blocks_needed then
            let idx := IndexBlock.mk (listAssignPrefix IndexBlock.init.indices
              (all_blocks.drop DIRECT_BLOCKS))
            match idx.to_bytes with
            | none => (fs2, .raised)
            | some idxbytes =>
              if newInd < 0 then (fs2, .raised)
              else
                let fs3 := { fs2 with disk := fs2.disk.writeBlockN newInd.toNat idxbytes }
                fs3.finish_write i filename content now all_blocks
          else
            fs2.finish_write i filename content now all_blocks

/-- `FileSystem.delete_file` (lines 694-735): refuse while the reference
count is positive; otherwise free every direct block, every indirect-indexed
block and the indirect block itself, reset the inode and persist. -/
def FSState.delete_file (fs : FSState) (filename : List Nat) : FSState × Bool × String :=
  match fs.find_inode_idx filename with
  | none => (fs, false, "文件 '" ++ bytesToString filename ++ "' 不存在")
  | some i =>
    let ino := fs.inodes.getD i INode.init
    if 0 < ino.ref_count then
      (fs, false, "文件 '" ++ bytesToString filename ++ "' 正在被使用，无法删除")
    else
      let bm1 := (ino.direct_blocks.filter (fun b => decide (0 ≤ b))).foldl
        (fun b x => b.set_free x) fs.bitmap
      let bm2 :=
        if 0 ≤ ino.indirect_block then
          let idx := IndexBlock.from_bytes (fs.disk.readBlockN ino.indirect_block.toNat)
          ((idx.indices.filter (fun b => decide (0 ≤ b))).foldl
            (fun b x => b.set_free x) bm1).set_free ino.indirect_block
        else bm1
      let ino2 := { ino with
        is_used := false
        filename := []
        file_size := 0
        direct_blocks := List.replicate DIRECT_BLOCKS (-1)
        indirect_block := -1
        ref_count := 0 }
      let fs1 := { fs with
        bitmap := bm2
        inodes := fs.inodes.set i ino2
        superblock := { fs.superblock with free_inodes := fs.superblock.free_inodes + 1 } }
      let fs2 := (fs1.save_inodes).save_bitmap
      let fs3 := { fs2 with superblock := ({ fs2.superblock with
        free_blocks := (fs2.bitmap.free_blocks_count : Int) }) }
      let fs4 := fs3.save_superblock
      (fs4, true, "文件 '" ++ bytesToString filename ++ "' 删除成功")

/-- `FileSystem.acquire_file` (lines 769-777): increment the reference count
of an existing file. -/
def FSState.acquire_file (fs : FSState) (filename : List Nat) : FSState × Bool :=
  match fs.find_inode_idx filename with
  | some i =>
    let ino := fs.inodes.getD i INode.init
    (({ fs with inodes := fs.inodes.set i { ino with ref_count := ino.ref_count + 1 } }).save_inodes,
      true)
  | none => (fs, false)

/-- `FileSystem.release_file` (lines 779-787): decrement the reference count
only when it is strictly positive. -/
def FSState.release_file (fs : FSState) (filename : List Nat) : FSState × Bool :=
  match fs.find_inode_idx filename with
  | some i =>
    let ino := fs.inodes.getD i INode.init
    if 0 < ino.ref_count then
      (({ fs with inodes := fs.inodes.set i { ino with ref_count := ino.ref_count - 1 } }).save_inodes,
        true)
    else (fs, false)
  | none => (fs, false)

/-- Allocated block count of one file as computed by `list_directory`
(lines 742-748): direct blocks, plus for an indirect file the
indirect-indexed blocks and the indirect block itself. -/
def FSState.allocated_block_count (fs : FSState) (ino : INode) : Nat :=
  let direct := (ino.direct_blocks.filter (fun b => decide (0 ≤ b))).length
  if 0 ≤ ino.indirect_block then
    direct + ((IndexBlock.from_bytes
      (fs.disk.readBlockN ino.indirect_block.toNat)).indices.filter
        (fun b => decide (0 ≤ b))).length + 1
  else direct

/-! ## Concrete states used by the claim theorems -/

/-- A freshly formatted filesystem. -/
def fsFormatted : FSState := FSState.format

/-- A filesystem whose data bitmap is completely full (every bit set), the
failing input for the insufficient-space rollback claim. -/
def fsBitmapFull : FSState :=
  { fsFormatted with bitmap := { total_blocks := TOTAL_BLOCKS, bits := List.replicate 128 255 } }

/-- A well-formed inode whose fields all fit their binary encodings. -/
def c3WitnessInode : INode :=
  { inode_id := 3, filename := [116, 46, 116, 120, 116], file_size := 1234
    create_time := 0, modify_time := 0, permission := 6, is_used := true
    is_directory := false, ref_count := 2
    direct_blocks := [35, 36, 37, -1, -1, -1, -1, -1, -1, -1], indirect_block := 45 }

/-- An inode with non-zero timestamps, a 22-byte name, permission 15 and
ref_count 9: field values the 64-byte record cannot carry. -/
def c3QuirkInode : INode :=
  { inode_id := 3, filename := List.replicate 22 65, file_size := 123456
    create_time := 5, modify_time := 6, permission := 15, is_used := true
    is_directory := false, ref_count := 9
    direct_blocks := [35, 36, -1, -1, -1, -1, -1, -1, -1, -1], indirect_block := 45 }

/-! ## BufferManager (buffer.py): pages, LRU order, counters, backing disk -/

def BUFFER_SIZE : Nat := 16

structure BufferPage where
  page_id : Nat
  block_num : Int
  filename : String
  data : List Nat
  is_dirty : Bool
  is_valid : Bool
  owner_pid : Int
  access_count : Nat
  deriving DecidableEq

/-- The dataclass defaults of `BufferPage` (buffer.py lines 16-28). The two
wall-clock fields `access_time` and `load_time` never influence behavior
(recency lives in `lru_order`) and are omitted from the embedding. -/
def BufferPage.init (i : Nat) : BufferPage :=
  { page_id := i, block_num := -1, filename := "", data := List.replicate BLOCK_SIZE 0
    is_dirty := false, is_valid := false, owner_pid := -1, access_count := 0 }

structure BufState where
  pages : List BufferPage
  lru_order : List Nat
  hit_count : Nat
  miss_count : Nat
  writeback_count : Nat
  disk : Disk

/-- The `BufferManager` constructor (buffer.py lines 36-56) over a given
backing disk: `buffer_size` fresh invalid pages in id order. -/
def BufState.init (buffer_size : Nat) (d : Disk) : BufState :=
  { pages := (List.range buffer_size).map BufferPage.init
    lru_order := [], hit_count := 0, miss_count := 0, writeback_count := 0, disk := d }

/-- `BufferManager._find_free_page` (lines 58-63): first invalid page in id
order (pages are kept in id order, so the list index is the page id). -/
def BufState.find_free_page (s : BufState) : Option Nat :=
  s.pages.findIdx? (fun p => !p.is_valid)

/-- `BufferManager._find_lru_page` (lines 65-71): the oldest entry of the
recency list. -/
def BufState.find_lru_page (s : BufState) : Option Nat :=
  s.lru_order.head?

/-- `BufferManager._update_lru` (lines 73-78): move to the most recent end,
appending if absent. -/
def BufState.update_lru (s : BufState) (page_id : Nat) : BufState :=
  if page_id ∈ s.lru_order then
    { s with lru_order := s.lru_order.erase page_id ++ [page_id] }
  else
    { s with lru_order := s.lru_order ++ [page_id] }

/-- `BufferManager._remove_from_lru` (lines 80-83). -/
def BufState.remove_from_lru (s : BufState) (page_id : Nat) : BufState :=
  { s with lru_order := s.lru_order.erase page_id }

/-- `BufferManager._evict_page` (lines 85-114): write a dirty page back
(counting the write-back) and clear the page. Valid pages always carry the
non-negative block number they were loaded with. -/
def BufState.evict_page (s : BufState) (page_id : Nat) : BufState :=
  let p := s.pages.getD page_id (BufferPage.init page_id)
  if !p.is_valid then s
  else
    let s1 :=
      if p.is_dirty then
        { s with
          disk := s.disk.writeBlockN p.block_num.toNat p.data
          writeback_count := s.writeback_count + 1 }
      else s
    let cleared := { p with
      is_valid := false
      is_dirty := false
      block_num := -1
      filename := ""
      owner_pid := -1
      data := List.replicate BLOCK_SIZE 0 }
    let s2 := { s1 with pages := s1.pages.set page_id cleared }
    s2.remove_from_lru page_id

/-- Install step of `load_block` (lines 150-172): read the block from the
backing store into page `i`, mark it valid and clean, set its identity and
reset its access count, then touch the recency list. -/
def BufState.install_page (s : BufState) (i : Nat) (filename : String) (block_num : Nat)
    (pid : Int) : BufState × Option (Nat × List Nat) :=
  let data := s.disk.readBlockN block_num
  let p := s.pages.getD i (BufferPage.init i)
  let p2 := { p with
    block_num := (block_num : Int)
    filename := filename
    data := data
    is_valid := true
    is_dirty := false
    owner_pid := pid
    access_count := 1 }
  let s1 := { s with pages := s.pages.set i p2 }
  (s1.update_lru i, some (i, data))

/-- `BufferManager.load_block` (lines 116-172): hit bumps the page and its
recency; miss takes a free page, else evicts the least recently used page
(`None` when there is neither), then installs the block. -/
def BufState.load_block (s : BufState) (filename : String) (block_num : Nat) (pid : Int) :
    BufState × Option (Nat × List Nat) :=
  match s.pages.findIdx?
      (fun p => p.is_valid && p.block_num == (block_num : Int) && p.filename == filename) with
  | some i =>
    let p := s.pages.getD i (BufferPage.init i)
    let s1 := { s with
      hit_count := s.hit_count + 1
      pages := s.pages.set i { p with access_count := p.access_count + 1 } }
    (s1.update_lru i, some (i, p.data))
  | none =>
    let s1 := { s with miss_count := s.miss_count + 1 }
    match s1.find_free_page with
    | some i => s1.install_page i filename block_num pid
    | none =>
      match s1.find_lru_page with
      | none => (s1, none)
      | some i => (s1.evict_page i).install_page i filename block_num pid

/-- `BufferManager.write_block` (lines 174-191): load first (delayed write),
then overwrite the page buffer with the block-sized data and mark it
dirty. -/
def BufState.write_block (s : BufState) (filename : String) (block_num : Nat)
    (data : List Nat) (pid : Int) : BufState × Bool :=
  let r := s.load_block filename block_num pid
  match r.2 with
  | none => (r.1, false)
  | some (i, _) =>
    let p := r.1.pages.getD i (BufferPage.init i)
    let p2 := { p with
      data := ljust0 (data.take BLOCK_SIZE) BLOCK_SIZE
      is_dirty := true }
    ({ r.1 with pages := r.1.pages.set i p2 }, true)

/-- One iteration of the `flush_all` loop (lines 193-201) at page index `i`. -/
def flushStep (st : BufState) (i : Nat) : BufState :=
  let p := st.pages.getD i (BufferPage.init i)
  if p.is_valid && p.is_dirty then
    { st with
      disk := st.disk.writeBlockN p.block_num.toNat p.data
      writeback_count := st.writeback_count + 1
      pages := st.pages.set i { p with is_dirty := false } }
  else st

/-- `BufferManager.flush_all` (lines 193-201): write every valid dirty page
back and clear its dirty flag, in page id order. -/
def BufState.flush_all (s : BufState) : BufState :=
  (List.range s.pages.length).foldl flushStep s

/-- One iteration of the `flush_file` loop (lines 203-211) at page index `i`. -/
def flushFileStep (filename : String) (st : BufState) (i : Nat) : BufState :=
  let p := st.pages.getD i (BufferPage.init i)
  if p.is_valid && p.is_dirty && p.filename == filename then
    { st with
      disk := st.disk.writeBlockN p.block_num.toNat p.data
      writeback_count := st.writeback_count + 1
      pages := st.pages.set i { p with is_dirty := false } }
  else st

/-- `BufferManager.flush_file` (lines 203-211). -/
def BufState.flush_file (s : BufState) (filename : String) : BufState :=
  (List.range s.pages.length).foldl (flushFileStep filename) s

/-- One iteration of the `invalidate_file` loop (lines 213-224) at page
index `i`: write back if dirty, then mark the page invalid and drop it from
the recency list. -/
def invalidateStep (filename : String) (st : BufState) (i : Nat) : BufState :=
  let p := st.pages.getD i (BufferPage.init i)
  if p.is_valid && p.filename == filename then
    let st1 :=
      if p.is_dirty then
        { st with
          disk := st.disk.writeBlockN p.block_num.toNat p.data
          writeback_count := st.writeback_count + 1 }
      else st
    let st2 := { st1 with pages := st1.pages.set i { p with
      is_valid := false
      is_dirty := false } }
    st2.remove_from_lru i
  else st

/-- `BufferManager.invalidate_file` (lines 213-224). -/
def BufState.invalidate_file (s : BufState) (filename : String) : BufState :=
  (List.range s.pages.length).foldl (invalidateStep filename) s

/-- Buffer states reachable from a fresh pool by any sequence of
`load_block`, `write_block`, `flush_all`, `flush_file` and
`invalidate_file` operations (claim C6). -/
inductive BufReach : BufState → Prop where
  | init (n : Nat) (d : Disk) : BufReach (BufState.init n d)
  | load (s : BufState) (f : String) (b : Nat) (pid : Int) :
      BufReach s → BufReach (s.load_block f b pid).1
  | write (s : BufState) (f : String) (b : Nat) (data : List Nat) (pid : Int) :
      BufReach s → BufReach (s.write_block f b data pid).1
  | flushAll (s : BufState) : BufReach s → BufReach s.flush_all
  | flushFile (s : BufState) (f : String) : BufReach s → BufReach (s.flush_file f)
  | invalidate (s : BufState) (f : String) : BufReach s → BufReach (s.invalidate_file f)

/-- The cache coherence invariant of claim C6 on a page list: a valid page
caches one real (non-negative) block, and no two distinct valid pages cache
the same (filename, block number) pair. -/
def BufInvP (ps : List BufferPage) : Prop :=
  (∀ p ∈ ps, p.is_valid = true → 0 ≤ p.block_num)
  ∧ ∀ i j, i < ps.length → j < ps.length → i ≠ j →
      (ps.getD i (BufferPage.init i)).is_valid = true →
      (ps.getD j (BufferPage.init j)).is_valid = true →
      ¬((ps.getD i (BufferPage.init i)).filename
          = (ps.getD j (BufferPage.init j)).filename
        ∧ (ps.getD i (BufferPage.init i)).block_num
          = (ps.getD j (BufferPage.init j)).block_num)

/-- The cache coherence invariant of claim C6. -/
def BufInv (s : BufState) : Prop := BufInvP s.pages

/-- One page list refines another when every page valid in the second was
already valid with the same identity (filename and block number) at the
same index in the first: every buffer operation except the install step of
a miss produces a refinement, and refinements preserve `BufInvP`. -/
def IdsLe (ps qs : List BufferPage) : Prop :=
  qs.length = ps.length
  ∧ ∀ j, (qs.getD j (BufferPage.init j)).is_valid = true →
      (ps.getD j (BufferPage.init j)).is_valid = true
      ∧ (qs.getD j (BufferPage.init j)).filename = (ps.getD j (BufferPage.init j)).filename
      ∧ (qs.getD j (BufferPage.init j)).block_num = (ps.getD j (BufferPage.init j)).block_num

/-- Sequential whole-block loads of a list of (filename, block) pairs
through the buffer (claim C7). -/
def loadSeq (s : BufState) (ps : List (String × Nat)) : BufState :=
  ps.foldl (fun st p => (st.load_block p.1 p.2 (-1)).1) s

/-- The 17 distinct (filename, block) pairs of spec Scenario B:
blocks 35..51 of one file. -/
def c7Pairs : List (String × Nat) := (List.range 17).map (fun i => ("f", 35 + i))

/-- A block of data used to dirty the first loaded page. -/
def c7WriteData : List Nat := List.replicate 64 9

/-- All blocks a file holds, in the order `delete_file` frees them (lines
705-717): direct blocks, then indirect-indexed blocks, then the indirect
block itself. -/
def FSState.file_blocks (fs : FSState) (ino : INode) : List Int :=
  (ino.direct_blocks.filter (fun b => decide (0 ≤ b)))
    ++ (if 0 ≤ ino.indirect_block then
        ((IndexBlock.from_bytes
            (fs.disk.readBlockN ino.indirect_block.toNat)).indices.filter
          (fun b => decide (0 ≤ b))) ++ [ino.indirect_block]
      else [])

/-- A file is well allocated: every block it references lies in the data
region of a standard-size bitmap, is currently marked used, and no block is
referenced twice — exactly the consistency the spec demands of a volume
(§3: a bit is set iff the block is reserved or referenced once). -/
def FSState.well_allocated (fs : FSState) (ino : INode) : Prop :=
  (∀ b ∈ fs.file_blocks ino, (DATA_START : Int) ≤ b ∧ b < (TOTAL_BLOCKS : Int)
    ∧ fs.bitmap.is_free b = false)
  ∧ (fs.file_blocks ino).Nodup
  ∧ fs.bitmap.total_blocks = TOTAL_BLOCKS
  ∧ fs.bitmap.bits.length = 128

/-- Concrete state for the busy-delete scenario: a 700-byte file (11 data
blocks, hence an indirect chain of 12 allocated blocks) created on a fresh
volume and then opened once, so its reference count is 1. -/
def c9Fs : FSState :=
  ((fsFormatted.create_file [102] (List.replicate 700 7) 6 0).1.acquire_file [102]).1

/-- Every inode in the table carries a non-negative reference count. -/
def FSState.RefNonneg (fs : FSState) : Prop :=
  ∀ ino ∈ fs.inodes, 0 ≤ ino.ref_count

/-- Filesystem states reachable from a freshly formatted volume by the
public mutating operations. -/
inductive FSReach : FSState → Prop where
  | format : FSReach FSState.format
  | create (fs : FSState) (fname content : List Nat) (perm now : Nat) :
      FSReach fs → FSReach (fs.create_file fname content perm now).1
  | write (fs : FSState) (fname content : List Nat) (now : Nat) :
      FSReach fs → FSReach (fs.write_file fname content now).1
  | delete (fs : FSState) (fname : List Nat) :
      FSReach fs → FSReach (fs.delete_file fname).1
  | acquire (fs : FSState) (fname : List Nat) :
      FSReach fs → FSReach (fs.acquire_file fname).1
  | release (fs : FSState) (fname : List Nat) :
      FSReach fs → FSReach (fs.release_file fname).1

/-! ## Serialization lemmas for the inode round-trip (claim C3) -/

theorem flatMap_i16enc_length (db : List Int) : (db.flatMap i16enc).length = 2 * db.length := by
  induction db with
  | nil => rfl
  | cons a t ih => simp [List.flatMap_cons, ih, i16enc, le16enc]; ring

theorem ljust0_length (l : List Nat) (n : Nat) (h : l.length ≤ n) :
    (ljust0 l n).length = n := by
  simp [ljust0]; omega

theorem drop_append_len {α : Type} (l₁ l₂ : List α) (n : Nat) (h : l₁.length = n) :
    (l₁ ++ l₂).drop n = l₂ := by subst h; exact List.drop_left l₁ l₂

theorem take_append_len {α : Type} (l₁ l₂ : List α) (n : Nat) (h : l₁.length = n) :
    (l₁ ++ l₂).take n = l₁ := by subst h; exact List.take_left l₁ l₂

theorem getD_as_drop (l : List Nat) (n d : Nat) : l.getD n d = (l.drop n).getD 0 d := by
  rw [List.getD_eq_getElem?_getD, List.getD_eq_getElem?_getD, List.getElem?_drop]
  norm_num

theorem le32_roundtrip (n : Nat) (h : n < 4294967296) : le32decL (le32enc n) = n := by
  simp [le32decL, le32enc]; omega

theorem i16_roundtrip (k : Int) (h1 : -32768 ≤ k) (h2 : k < 32768) :
    i16decL (i16enc k) = k := by
  have hm : 0 ≤ k % 65536 := Int.emod_nonneg k (by norm_num)
  have hm2 : k % 65536 < 65536 := Int.emod_lt_of_pos k (by norm_num)
  have hcast : (((k % 65536).toNat : Int)) = k % 65536 := Int.toNat_of_nonneg hm
  have hnlt : (k % 65536).toNat < 65536 := by omega
  simp only [i16decL, i16enc, le16enc, i16dec, List.getD_cons_zero, List.getD_cons_succ]
  have hmn : (k % 65536).toNat % 256 + 256 * ((k % 65536).toNat / 256 % 256)
      = (k % 65536).toNat := by omega
  rw [hmn]
  split <;> omega

theorem map_getD_range {α : Type} (l : List α) (d : α) (n : Nat) (h : l.length = n) :
    (List.range n).map (fun i => l.getD i d) = l := by
  induction l generalizing n with
  | nil => subst h; rfl
  | cons a t ih =>
    subst h
    rw [List.length_cons, List.range_succ_eq_map, List.map_cons, List.map_map]
    simp only [List.getD_cons_zero]
    congr 1
    exact ih t.length rfl

theorem flatMap_i16_drop (db : List Int) (rest : List Nat) (i : Nat) (h : i < db.length) :
    ((db.flatMap i16enc) ++ rest).drop (2 * i)
      = i16enc (db.getD i 0) ++ ((db.drop (i + 1)).flatMap i16enc ++ rest) := by
  induction db generalizing i rest with
  | nil => simp at h
  | cons a t ih =>
    cases i with
    | zero => simp [List.flatMap_cons]
    | succ j =>
      have h2 : 2 * (j + 1) = (i16enc a).length + 2 * j := by
        simp [i16enc, le16enc]; ring
      rw [List.flatMap_cons, List.append_assoc, h2, ← List.drop_drop, List.drop_left]
      have hj : j < t.length := by simpa using h
      simpa using ih rest j hj

theorem rstrip0_append_zeros (l : List Nat) (k : Nat) :
    rstrip0 (l ++ List.replicate k 0) = rstrip0 l := by
  simp only [rstrip0, List.reverse_append]
  congr 1
  induction k with
  | zero => rfl
  | succ m ih =>
    rw [List.replicate_succ, List.reverse_cons, List.append_assoc]
    simp only [List.nil_append, List.singleton_append, List.dropWhile_cons]
    simpa using ih

theorem rstrip0_eq_self (l : List Nat) (h : l.getLast? ≠ some 0) : rstrip0 l = l := by
  unfold rstrip0
  rcases hr : l.reverse with _ | ⟨a, t⟩
  · have : l = [] := by simpa using congrArg List.reverse hr
    simp [this]
  · have ha : a ≠ 0 := by
      intro h0
      apply h
      have : l.getLast? = l.reverse.head? := by rw [List.head?_reverse]
      rw [this, hr, h0]
      rfl
    rw [List.dropWhile_cons_of_neg (by simpa using ha), ← hr, List.reverse_reverse]

theorem flags_roundtrip : ∀ (u d : Bool), ∀ p < 8, ∀ r < 8,
    ((((if u then 128 else 0) + (if d then 64 else 0) + p * 8 + r) &&& 128 != 0) = u
    ∧ (((if u then 128 else 0) + (if d then 64 else 0) + p * 8 + r) &&& 64 != 0) = d
    ∧ ((((if u then 128 else 0) + (if d then 64 else 0) + p * 8 + r) >>> 3) &&& 7) = p
    ∧ (((if u then 128 else 0) + (if d then 64 else 0) + p * 8 + r) &&& 7) = r) := by
  decide

theorem i16enc_length (k : Int) : (i16enc k).length = 2 := rfl

theorem getD_mem_of_lt {α : Type} (l : List α) (i : Nat) (d : α) (h : i < l.length) :
    l.getD i d ∈ l := by
  rw [List.getD_eq_getElem l d h]
  exact List.getElem_mem h

/-- Sum form of the serialized length of the direct-block shorts. -/
theorem sum_map_i16enc_length (db : List Int) :
    (List.map (List.length ∘ i16enc) db).sum = 2 * db.length := by
  induction db with
  | nil => rfl
  | cons a t ih => simp [ih, i16enc, le16enc]; ring

/-- Padding a 48-byte body to one 64-byte block. -/
theorem ljust0_take_64 (l : List Nat) (h : l.length = 48) :
    (ljust0 l 64).take 64 = l ++ List.replicate 16 0 := by
  have h16 : 64 - l.length = 16 := by omega
  unfold ljust0
  rw [h16]
  apply List.take_of_length_le
  rw [List.length_append, List.length_replicate, h]

/-- Round-trip of the inode serialization, general form over the eleven
field values of an `INode` record. -/
theorem inode_roundtrip_core (id : Nat) (nm : List Nat) (fsz pm : Nat) (us dir : Bool)
    (rc : Int) (db : List Int) (ib : Int) (slot : Nat)
    (hid : id < 256)
    (hsz : fsz < 4294967296)
    (hnm : nm.length ≤ 20)
    (hnm2 : nm.getLast? ≠ some 0)
    (hpm : pm < 8)
    (hrc0 : 0 ≤ rc) (hrc8 : rc < 8)
    (hdb : db.length = 10)
    (hdbr : ∀ b ∈ db, -32768 ≤ b ∧ b < 32768)
    (hib1 : -32768 ≤ ib) (hib2 : ib < 32768) :
    INode.from_bytes (INode.to_bytes (INode.mk id nm fsz 0 0 pm us dir rc db ib)) slot
      = INode.mk (if id = slot then id else slot) nm fsz 0 0 pm us dir rc db ib := by
  have hpm8 : pm % 8 = pm := Nat.mod_eq_of_lt hpm
  have hrcmod : rc % 8 = rc := Int.emod_eq_of_lt hrc0 hrc8
  have hrcast : ((rc.toNat : Nat) : Int) = rc := Int.toNat_of_nonneg hrc0
  have hr8 : rc.toNat < 8 := by omega
  have hdbmap : (List.range DIRECT_BLOCKS).map (fun i => db.getD i (-1)) = db :=
    map_getD_range db (-1) DIRECT_BLOCKS (by simpa [DIRECT_BLOCKS] using hdb)
  have hnbl : (ljust0 (nm.take MAX_FILENAME) MAX_FILENAME).length = 20 := by
    apply ljust0_length
    simp [MAX_FILENAME]
  have hbytes : INode.to_bytes (INode.mk id nm fsz 0 0 pm us dir rc db ib)
      = id % 256 :: (ljust0 (nm.take MAX_FILENAME) MAX_FILENAME ++ (le32enc fsz
        ++ (((if us then 128 else 0) + (if dir then 64 else 0) + (pm % 8) * 8 + (rc % 8).toNat)
          :: (db.flatMap i16enc ++ (i16enc ib ++ List.replicate 16 0))))) := by
    simp only [INode.to_bytes]
    rw [hdbmap]
    rw [ljust0_take_64 _ (by
      simp [hnbl, sum_map_i16enc_length, hdb, le32enc, i16enc, le16enc])]
    simp [List.append_assoc]
  rw [hbytes]
  set nb := ljust0 (nm.take MAX_FILENAME) MAX_FILENAME with hnbdef
  set flg := (if us then 128 else 0) + (if dir then 64 else 0) + (pm % 8) * 8 + (rc % 8).toNat
    with hflgdef
  set dat := id % 256 :: (nb ++ (le32enc fsz ++ (flg :: (db.flatMap i16enc
    ++ (i16enc ib ++ List.replicate 16 0))))) with hdatdef
  have hdatlen : dat.length = 64 := by
    simp [hdatdef, hnbl, sum_map_i16enc_length, hdb, le32enc, i16enc, le16enc]
  have g0 : dat.getD 0 0 = id % 256 := rfl
  have g1 : dat.drop 1 = nb ++ (le32enc fsz ++ (flg :: (db.flatMap i16enc
      ++ (i16enc ib ++ List.replicate 16 0)))) := rfl
  have g21 : dat.drop 21 = le32enc fsz ++ (flg :: (db.flatMap i16enc
      ++ (i16enc ib ++ List.replicate 16 0))) := by
    have h2 : dat.drop 21 = (dat.drop 1).drop 20 := by rw [List.drop_drop]
    rw [h2, g1, drop_append_len nb _ 20 hnbl]
  have g25 : dat.drop 25 = flg :: (db.flatMap i16enc ++ (i16enc ib ++ List.replicate 16 0)) := by
    have h2 : dat.drop 25 = (dat.drop 21).drop 4 := by rw [List.drop_drop]
    rw [h2, g21, drop_append_len (le32enc fsz) _ 4 rfl]
  have g26 : dat.drop 26 = db.flatMap i16enc ++ (i16enc ib ++ List.replicate 16 0) := by
    have h2 : dat.drop 26 = (dat.drop 25).drop 1 := by rw [List.drop_drop]
    rw [h2, g25, List.drop_succ_cons, List.drop_zero]
  have g46 : dat.drop 46 = i16enc ib ++ List.replicate 16 0 := by
    have h2 : dat.drop 46 = (dat.drop 26).drop 20 := by rw [List.drop_drop]
    rw [h2, g26, drop_append_len _ _ 20 (by rw [flatMap_i16enc_length, hdb])]
  have gname : rstrip0 ((dat.drop 1).take 20) = nm := by
    rw [g1, take_append_len nb _ 20 hnbl, hnbdef]
    have h3 : ljust0 (nm.take MAX_FILENAME) MAX_FILENAME
        = nm ++ List.replicate (MAX_FILENAME - nm.length) 0 := by
      simp [ljust0, List.take_of_length_le (show nm.length ≤ MAX_FILENAME from hnm)]
    rw [h3, rstrip0_append_zeros, rstrip0_eq_self nm hnm2]
  have gsize : le32decL ((dat.drop 21).take 4) = fsz := by
    rw [g21, take_append_len (le32enc fsz) _ 4 rfl, le32_roundtrip fsz hsz]
  have gflags : dat.getD 25 0 = flg := by
    rw [getD_as_drop, g25, List.getD_cons_zero]
  have hfr := flags_roundtrip us dir pm hpm rc.toNat hr8
  rw [hpm8, hrcmod] at hflgdef
  have gdbs : (List.range DIRECT_BLOCKS).map
      (fun i => i16decL ((dat.drop (26 + 2 * i)).take 2)) = db := by
    have hpt : ∀ i ∈ List.range DIRECT_BLOCKS,
        i16decL ((dat.drop (26 + 2 * i)).take 2) = db.getD i 0 := by
      intro i hi
      have hi10 : i < db.length := by
        rw [hdb]
        simpa [DIRECT_BLOCKS] using hi
      have hstep : dat.drop (26 + 2 * i) = (dat.drop 26).drop (2 * i) := by
        rw [List.drop_drop]
      rw [hstep]
      rw [g26]
      rw [flatMap_i16_drop db _ i hi10]
      rw [take_append_len _ _ 2 (i16enc_length _)]
      have hmem := getD_mem_of_lt db i 0 hi10
      exact i16_roundtrip _ (hdbr _ hmem).1 (hdbr _ hmem).2
    rw [List.map_congr_left hpt]
    exact map_getD_range db 0 DIRECT_BLOCKS (by simpa [DIRECT_BLOCKS] using hdb)
  have gib : i16decL ((dat.drop 46).take 2) = ib := by
    rw [g46, take_append_len _ _ 2 (i16enc_length _), i16_roundtrip ib hib1 hib2]
  simp only [INode.from_bytes]
  rw [if_neg (by omega)]
  simp only [g0, gname, gsize, gflags, gdbs, gib]
  rw [← hflgdef] at hfr
  simp only [hfr.1, hfr.2.1, hfr.2.2.1, hfr.2.2.2, hrcast]
  have hidm : id % 256 = id := Nat.mod_eq_of_lt hid
  simp only [hidm]
  by_cases hslot : id = slot
  · simp [hslot]
  · simp [hslot, beq_iff_eq]

/-! ## Claim C3: inode serialization round-trip -/

/-- C3 (amended): parsing a serialized inode back at a slot reproduces the
filename, file size, flag bits, permission, ref_count and both block
fields, with the stored id byte replaced by the slot index when it
mismatches the slot — provided every field fits its binary encoding: id
below 256, size below 2^32, name at most 20 bytes without a trailing zero
byte, permission and ref_count inside their 3-bit flag slots, exactly ten
direct entries and all block numbers in signed 16-bit range. The
create/modify timestamps are not serialized at all, so they survive only
when they already are the dataclass default 0. -/
theorem c3_inode_roundtrip (ino : INode) (slot : Nat)
    (hid : ino.inode_id < 256)
    (hsz : ino.file_size < 4294967296)
    (hnm : ino.filename.length ≤ 20)
    (hnm2 : ino.filename.getLast? ≠ some 0)
    (hct : ino.create_time = 0) (hmt : ino.modify_time = 0)
    (hpm : ino.permission < 8)
    (hrc0 : 0 ≤ ino.ref_count) (hrc8 : ino.ref_count < 8)
    (hdb : ino.direct_blocks.length = 10)
    (hdbr : ∀ b ∈ ino.direct_blocks, -32768 ≤ b ∧ b < 32768)
    (hib1 : -32768 ≤ ino.indirect_block) (hib2 : ino.indirect_block < 32768) :
    INode.from_bytes (INode.to_bytes ino) slot
      = { ino with inode_id := if ino.inode_id = slot then ino.inode_id else slot } := by
  obtain ⟨id, nm, fsz, ct, mt, pm, us, dir, rc, db, ib⟩ := ino
  dsimp only at hid hsz hnm hnm2 hct hmt hpm hrc0 hrc8 hdb hdbr hib1 hib2
  subst hct
  subst hmt
  exact inode_roundtrip_core id nm fsz pm us dir rc db ib slot
    hid hsz hnm hnm2 hpm hrc0 hrc8 hdb hdbr hib1 hib2

/-- Witness for C3: the round-trip theorem applied to a concrete well-formed
inode at a mismatching slot. -/
theorem c3_inode_roundtrip_witness :
    INode.from_bytes (INode.to_bytes c3WitnessInode) 7
      = { c3WitnessInode with inode_id :=
          if c3WitnessInode.inode_id = 7 then c3WitnessInode.inode_id else 7 } :=
  c3_inode_roundtrip c3WitnessInode 7 (by decide) (by decide) (by decide) (by decide)
    (by decide) (by decide) (by decide) (by decide) (by decide) (by decide) (by decide)
    (by decide) (by decide)

/-- Counterexample to C3 as stated: at this concrete inode the round-trip
(at the matching slot, so the id quirk does not even apply) fails to
reproduce the fields — both timestamps come back 0, permission 15 and
ref_count 9 lose everything above their low 3 bits, and the 22-byte name is
truncated to 20 bytes. -/
theorem c3_inode_roundtrip_counterexample :
    INode.from_bytes (INode.to_bytes c3QuirkInode) 3
      ≠ { c3QuirkInode with inode_id :=
          if c3QuirkInode.inode_id = 3 then c3QuirkInode.inode_id else 3 } := by
  decide

/-! ## Claim C1: rollback on insufficient space in create_file -/

/-- C1 (code bug): on a filesystem whose data bitmap is completely full,
`create_file` returns the insufficient-space failure and indeed leaves
every bitmap bit untouched, but the inode allocated at the start of the
operation stays marked used and the free-inode counter stays decremented
from 32 to 31 — the failed create permanently leaks inode 0, contradicting
the claim that the state is as if the operation never ran. -/
theorem c1_create_fail_leaks_inode :
    (fun r => (r.2, r.1.bitmap, (r.1.inodes.getD 0 INode.init).is_used,
        (r.1.inodes.getD 0 INode.init).filename, r.1.superblock.free_inodes))
      (fsBitmapFull.create_file [102] [1] 6 0)
    = (.ret false "空间不足", fsBitmapFull.bitmap, true, [], 31)
    ∧ fsBitmapFull.superblock.free_inodes = 32 := by
  constructor
  · decide
  · decide

/-! ## Claim C2: content beyond the 26-block ceiling -/

/-- C2 (code bug): a freshly formatted filesystem has 989 free data blocks,
yet creating a file of 1665 bytes (27 data blocks, one byte over the
26-block ceiling of 10 direct + 16 indirect indices) does not return a
failure result at all: the slice assignment extends the index list to 17
entries and `struct.pack` with sixteen format codes raises `struct.error`.
The exception leaves 28 freshly allocated blocks in the bitmap (989 drops
to 961) and the inode marked used — an unreported partial state instead of
the claimed clean rejection or truncation. -/
theorem c2_oversize_create_raises :
    (fun r => (r.2, r.1.bitmap.free_blocks_count,
        (r.1.inodes.getD 0 INode.init).is_used))
      (fsFormatted.create_file [102] (List.replicate 1665 7) 6 0)
    = (.raised, 961, true)
    ∧ fsFormatted.bitmap.free_blocks_count = 989 := by
  constructor
  · decide
  · decide

/-! ## Claim C5: the direct/indirect allocation boundary -/

/-- C5: on a freshly formatted filesystem, creating a file of exactly
10*BLOCK_SIZE = 640 bytes allocates only the ten direct data blocks 35-44
(indirect stays -1, the free count drops from 989 to 979), while
10*BLOCK_SIZE+1 = 641 bytes allocates the same ten direct blocks, one
indirect index block 45 whose index list holds the single extra data block
46, for 11 data blocks plus one index block in total (the free count drops
from 989 to 977, and the per-file block count is 12). -/
theorem c5_direct_indirect_boundary :
    ((fun r => ((r.1.inodes.getD 0 INode.init).direct_blocks,
        (r.1.inodes.getD 0 INode.init).indirect_block,
        r.1.bitmap.free_blocks_count, r.2))
      (fsFormatted.create_file [97] (List.replicate 640 7) 6 0)
      = ([35, 36, 37, 38, 39, 40, 41, 42, 43, 44], -1, 979,
        .ret true "文件 'a' 创建成功，占用 10 个块"))
    ∧ ((fun r => ((r.1.inodes.getD 0 INode.init).direct_blocks,
        (r.1.inodes.getD 0 INode.init).indirect_block,
        (IndexBlock.from_bytes (r.1.disk.readBlockN 45)).indices,
        r.1.bitmap.free_blocks_count,
        r.1.allocated_block_count (r.1.inodes.getD 0 INode.init), r.2))
      (fsFormatted.create_file [97] (List.replicate 641 7) 6 0)
      = ([35, 36, 37, 38, 39, 40, 41, 42, 43, 44], 45,
        [46, -1, -1, -1, -1, -1, -1, -1, -1, -1, -1, -1, -1, -1, -1, -1], 977, 12,
        .ret true "文件 'a' 创建成功，占用 11 个块"))
    ∧ fsFormatted.bitmap.free_blocks_count = 989 := by
  refine ⟨by decide, by decide, by decide⟩

/-! ## Claim C4: block store bounds behavior -/

/-- Counterexample to C4 as stated: reading block 1024 — the first block
number outside `[0, total_blocks)` — on a freshly created disk does not
fail with an I/O error; it succeeds and returns the empty byte string, and
writing block 1024 also succeeds, silently growing the backing file. -/
theorem c4_out_of_range_counterexample :
    VirtualDisk.read_block Disk.create 1024 = some []
    ∧ (VirtualDisk.write_block Disk.create 1024 [7]).isSome = true := by
  constructor
  · decide
  · decide

/-- C4 (amended): `read_block` and `write_block` fail with an I/O error only
for negative block numbers, where `seek` raises `OSError`; there is no range
check against `total_blocks` at all, so for `n ≥ total_blocks` `read_block`
succeeds returning the empty byte string (a read past the end of the file)
and `write_block` succeeds, extending the backing file to end at block `n`;
for every `n` inside `[0, total_blocks)` on a well-formed (full-size) disk,
`read_block` succeeds returning exactly `block_size` bytes. -/
theorem c4_read_write_block_bounds (d : Disk) (n : Int) (bytes : List Nat)
    (hwf : d.size = BLOCK_SIZE * TOTAL_BLOCKS) :
    (n < 0 → VirtualDisk.read_block d n = none ∧ VirtualDisk.write_block d n bytes = none)
    ∧ (0 ≤ n → n < (TOTAL_BLOCKS : Int) →
        ∃ bs, VirtualDisk.read_block d n = some bs ∧ bs.length = BLOCK_SIZE)
    ∧ ((TOTAL_BLOCKS : Int) ≤ n →
        VirtualDisk.read_block d n = some []
        ∧ ∃ d2, VirtualDisk.write_block d n bytes = some d2
            ∧ d2.size = (n.toNat + 1) * BLOCK_SIZE) := by
  have htb : (TOTAL_BLOCKS : Int) = 1024 := rfl
  have hbs : BLOCK_SIZE = 64 := rfl
  have htbn : TOTAL_BLOCKS = 1024 := rfl
  refine ⟨fun hn => ?_, fun h0 h1 => ?_, fun hge => ?_⟩
  · constructor
    · unfold VirtualDisk.read_block
      rw [if_pos hn]
    · unfold VirtualDisk.write_block
      rw [if_pos hn]
  · have hn0 : ¬ n < 0 := by omega
    have hlt : n.toNat < 1024 := by omega
    refine ⟨d.readBlockN n.toNat, ?_, ?_⟩
    · unfold VirtualDisk.read_block
      rw [if_neg hn0]
    · simp only [Disk.readBlockN, Disk.readBytes, List.length_map, List.length_range]
      rw [hwf, hbs, htbn]
      omega
  · have hn0 : ¬ n < 0 := by omega
    have hge2 : 1024 ≤ n.toNat := by omega
    constructor
    · unfold VirtualDisk.read_block
      rw [if_neg hn0]
      simp only [Disk.readBlockN, Disk.readBytes]
      have hz : min BLOCK_SIZE (d.size - n.toNat * BLOCK_SIZE) = 0 := by
        rw [hwf, hbs, htbn]
        omega
      rw [hz]
      rfl
    · refine ⟨d.writeBlockN n.toNat bytes, ?_, ?_⟩
      · unfold VirtualDisk.write_block
        rw [if_neg hn0]
      · simp only [Disk.writeBlockN]
        rw [hwf, hbs, htbn]
        omega

/-- Witness for C4: the amended bounds theorem applied to the freshly
created disk at block 2000, with the well-formedness hypothesis discharged
by computation. -/
theorem c4_read_write_block_bounds_witness :
    ((2000 : Int) < 0 → VirtualDisk.read_block Disk.create 2000 = none
      ∧ VirtualDisk.write_block Disk.create 2000 [7] = none)
    ∧ (0 ≤ (2000 : Int) → (2000 : Int) < (TOTAL_BLOCKS : Int) →
        ∃ bs, VirtualDisk.read_block Disk.create 2000 = some bs ∧ bs.length = BLOCK_SIZE)
    ∧ ((TOTAL_BLOCKS : Int) ≤ (2000 : Int) →
        VirtualDisk.read_block Disk.create 2000 = some []
        ∧ ∃ d2, VirtualDisk.write_block Disk.create 2000 [7] = some d2
            ∧ d2.size = ((2000 : Int).toNat + 1) * BLOCK_SIZE) :=
  c4_read_write_block_bounds Disk.create 2000 [7] (by decide)

/-! ## List helper lemmas for the buffer proofs -/

theorem getD_set_self {α : Type} (l : List α) (i : Nat) (a d : α) (h : i < l.length) :
    (l.set i a).getD i d = a := by
  rw [List.getD_eq_getElem?_getD, List.getElem?_set_self (by omega)]
  rfl

theorem getD_set_ne {α : Type} (l : List α) (i j : Nat) (a : α) (d : α) (h : i ≠ j) :
    (l.set i a).getD j d = l.getD j d := by
  rw [List.getD_eq_getElem?_getD, List.getElem?_set_ne h, ← List.getD_eq_getElem?_getD]

theorem findIdx?_some_facts {α : Type} (p : α → Bool) (l : List α) (i : Nat) (d : α)
    (h : l.findIdx? p = some i) : i < l.length ∧ p (l.getD i d) = true := by
  rw [List.findIdx?_eq_some_iff_findIdx_eq] at h
  obtain ⟨h1, h2⟩ := h
  subst h2
  refine ⟨h1, ?_⟩
  rw [List.getD_eq_getElem l d h1]
  exact List.findIdx_getElem

theorem findIdx?_none_facts {α : Type} (p : α → Bool) (l : List α)
    (h : l.findIdx? p = none) : ∀ x ∈ l, p x = false := by
  intro x hx
  have := List.findIdx?_eq_none_iff.mp h
  simpa using this x hx

/-! ## Refinement lemmas for the buffer invariant (claim C6) -/

theorem idsLe_refl (ps : List BufferPage) : IdsLe ps ps := by
  exact ⟨rfl, fun j hv => ⟨hv, rfl, rfl⟩⟩

theorem idsLe_trans {ps qs rs : List BufferPage} (h1 : IdsLe ps qs) (h2 : IdsLe qs rs) :
    IdsLe ps rs := by
  refine ⟨h2.1.trans h1.1, fun j hv => ?_⟩
  obtain ⟨hv2, hf2, hb2⟩ := h2.2 j hv
  obtain ⟨hv1, hf1, hb1⟩ := h1.2 j hv2
  exact ⟨hv1, hf2.trans hf1, hb2.trans hb1⟩

theorem idsLe_set (ps : List BufferPage) (i : Nat) (p2 : BufferPage)
    (h : p2.is_valid = true →
      (ps.getD i (BufferPage.init i)).is_valid = true
      ∧ p2.filename = (ps.getD i (BufferPage.init i)).filename
      ∧ p2.block_num = (ps.getD i (BufferPage.init i)).block_num) :
    IdsLe ps (ps.set i p2) := by
  by_cases hi : i < ps.length
  · refine ⟨List.length_set ps i p2, fun j hv => ?_⟩
    by_cases hij : i = j
    · subst hij
      rw [getD_set_self ps i p2 _ hi] at hv ⊢
      exact h hv
    · rw [getD_set_ne ps i j p2 _ hij] at hv ⊢
      exact ⟨hv, rfl, rfl⟩
  · rw [List.set_eq_of_length_le (by omega)]
    exact idsLe_refl ps

theorem invP_of_idsLe {ps qs : List BufferPage} (h : IdsLe ps qs) :
    BufInvP ps → BufInvP qs := by
  intro ⟨h1, h2⟩
  have hlen := h.1
  constructor
  · intro p hp hv
    obtain ⟨j, hj, hget⟩ := List.mem_iff_getElem.mp hp
    have hgd : qs.getD j (BufferPage.init j) = p := by
      rw [List.getD_eq_getElem qs _ hj, hget]
    obtain ⟨hv2, _, hb⟩ := h.2 j (by rw [hgd]; exact hv)
    have hmem : ps.getD j (BufferPage.init j) ∈ ps :=
      getD_mem_of_lt ps j (BufferPage.init j) (by omega)
    have := h1 _ hmem hv2
    rw [hgd] at hb
    omega
  · intro i j hi hj hij hvi hvj hmatch
    obtain ⟨hvi2, hfi, hbi⟩ := h.2 i hvi
    obtain ⟨hvj2, hfj, hbj⟩ := h.2 j hvj
    refine h2 i j (by omega) (by omega) hij hvi2 hvj2 ?_
    refine ⟨?_, ?_⟩
    · rw [← hfi, ← hfj]
      exact hmatch.1
    · rw [← hbi, ← hbj]
      exact hmatch.2

theorem fresh_of_idsLe {ps qs : List BufferPage} (h : IdsLe ps qs) (fname : String) (b : Int)
    (hf : ∀ j, j < ps.length → (ps.getD j (BufferPage.init j)).is_valid = true →
      ¬((ps.getD j (BufferPage.init j)).filename = fname
        ∧ (ps.getD j (BufferPage.init j)).block_num = b)) :
    ∀ j, j < qs.length → (qs.getD j (BufferPage.init j)).is_valid = true →
      ¬((qs.getD j (BufferPage.init j)).filename = fname
        ∧ (qs.getD j (BufferPage.init j)).block_num = b) := by
  intro j hj hv hmatch
  obtain ⟨hv2, hfj, hbj⟩ := h.2 j hv
  have hlen := h.1
  refine hf j (by omega) hv2 ⟨?_, ?_⟩
  · rw [← hfj]
    exact hmatch.1
  · rw [← hbj]
    exact hmatch.2

theorem invP_set_fresh (ps : List BufferPage) (i : Nat) (p2 : BufferPage)
    (hb : p2.is_valid = true → 0 ≤ p2.block_num)
    (hfresh : ∀ j, j < ps.length → j ≠ i →
      (ps.getD j (BufferPage.init j)).is_valid = true →
      ¬((ps.getD j (BufferPage.init j)).filename = p2.filename
        ∧ (ps.getD j (BufferPage.init j)).block_num = p2.block_num)) :
    BufInvP ps → BufInvP (ps.set i p2) := by
  intro ⟨h1, h2⟩
  by_cases hi : i < ps.length
  · constructor
    · intro p hp hv
      rcases List.mem_or_eq_of_mem_set hp with hmem | heq
      · exact h1 p hmem hv
      · subst heq
        exact hb hv
    · intro a b ha hb2 hab hva hvb
      rw [List.length_set] at ha hb2
      by_cases hai : a = i
      · subst hai
        rw [getD_set_self ps a p2 _ hi] at hva ⊢
        have hbne : b ≠ a := fun hh => hab hh.symm
        rw [getD_set_ne ps a b p2 _ (fun hh => hab hh)] at hvb ⊢
        intro hmatch
        exact hfresh b hb2 (fun hh => hab hh.symm) hvb ⟨hmatch.1.symm, hmatch.2.symm⟩
      · rw [getD_set_ne ps i a p2 _ (fun hh => hai hh.symm)] at hva ⊢
        by_cases hbi : b = i
        · subst hbi
          rw [getD_set_self ps b p2 _ hi] at hvb ⊢
          intro hmatch
          exact hfresh a ha hai hva hmatch
        · rw [getD_set_ne ps i b p2 _ (fun hh => hbi hh.symm)] at hvb ⊢
          exact h2 a b ha hb2 hab hva hvb
  · rw [List.set_eq_of_length_le (by omega)]
    exact ⟨h1, h2⟩

/-! ## Per-operation preservation of the buffer invariant -/

theorem idsLe_evict (s : BufState) (i : Nat) :
    IdsLe s.pages (s.evict_page i).pages := by
  simp only [BufState.evict_page, BufState.remove_from_lru]
  split
  · exact idsLe_refl _
  · split <;>
    · dsimp only
      apply idsLe_set
      intro hv
      simp at hv

theorem no_match_of_none (ps : List BufferPage) (f : String) (b : Nat)
    (h : ps.findIdx? (fun p => p.is_valid && p.block_num == (b : Int) && p.filename == f)
      = none) :
    ∀ j, j < ps.length → (ps.getD j (BufferPage.init j)).is_valid = true →
      ¬((ps.getD j (BufferPage.init j)).filename = f
        ∧ (ps.getD j (BufferPage.init j)).block_num = (b : Int)) := by
  intro j hj hv hmatch
  have hx := findIdx?_none_facts _ _ h _ (getD_mem_of_lt ps j (BufferPage.init j) hj)
  rw [hv, hmatch.1, hmatch.2] at hx
  simp at hx

theorem inv_install (s : BufState) (i : Nat) (f : String) (b : Nat) (pid : Int)
    (hfresh : ∀ j, j < s.pages.length →
      (s.pages.getD j (BufferPage.init j)).is_valid = true →
      ¬((s.pages.getD j (BufferPage.init j)).filename = f
        ∧ (s.pages.getD j (BufferPage.init j)).block_num = (b : Int)))
    (hinv : BufInvP s.pages) :
    BufInvP ((s.install_page i f b pid).1.pages) := by
  simp only [BufState.install_page, BufState.update_lru]
  split <;>
  · dsimp only
    apply invP_set_fresh _ _ _ (fun hmm => Int.natCast_nonneg b)
      (fun j hj hji hv => hfresh j hj hv) hinv

theorem inv_load (s : BufState) (f : String) (b : Nat) (pid : Int) (h : BufInv s) :
    BufInv (s.load_block f b pid).1 := by
  unfold BufInv at h ⊢
  simp only [BufState.load_block]
  cases hf : s.pages.findIdx?
      (fun p => p.is_valid && p.block_num == (b : Int) && p.filename == f) with
  | some i =>
    simp only [BufState.update_lru]
    split <;>
    · dsimp only
      exact invP_of_idsLe (idsLe_set _ _ _ (fun hv => ⟨hv, rfl, rfl⟩)) h
  | none =>
    cases hfree : BufState.find_free_page { s with miss_count := s.miss_count + 1 } with
    | some i =>
      dsimp only
      exact inv_install _ i f b pid (no_match_of_none s.pages f b hf) h
    | none =>
      cases hlru : BufState.find_lru_page { s with miss_count := s.miss_count + 1 } with
      | none => exact h
      | some i =>
        dsimp only
        apply inv_install _ i f b pid
        · exact fresh_of_idsLe (idsLe_evict _ i) f (b : Int) (no_match_of_none s.pages f b hf)
        · exact invP_of_idsLe (idsLe_evict _ i) h

theorem inv_write (s : BufState) (f : String) (b : Nat) (data : List Nat) (pid : Int)
    (h : BufInv s) : BufInv (s.write_block f b data pid).1 := by
  have hload := inv_load s f b pid h
  unfold BufInv at hload ⊢
  simp only [BufState.write_block]
  rcases hres : s.load_block f b pid with ⟨s2, res⟩
  rw [hres] at hload
  cases res with
  | none => exact hload
  | some r =>
    dsimp only
    exact invP_of_idsLe (idsLe_set _ _ _ (fun hv => ⟨hv, rfl, rfl⟩)) hload

theorem idsLe_flushStep (st : BufState) (i : Nat) :
    IdsLe st.pages (flushStep st i).pages := by
  simp only [flushStep]
  split
  · dsimp only
    exact idsLe_set _ _ _ (fun hv => ⟨hv, rfl, rfl⟩)
  · exact idsLe_refl _

theorem idsLe_flushFileStep (f : String) (st : BufState) (i : Nat) :
    IdsLe st.pages (flushFileStep f st i).pages := by
  simp only [flushFileStep]
  split
  · dsimp only
    exact idsLe_set _ _ _ (fun hv => ⟨hv, rfl, rfl⟩)
  · exact idsLe_refl _

theorem idsLe_invalidateStep (f : String) (st : BufState) (i : Nat) :
    IdsLe st.pages (invalidateStep f st i).pages := by
  simp only [invalidateStep, BufState.remove_from_lru]
  split
  · split <;>
    · dsimp only
      apply idsLe_set
      intro hv
      simp at hv
  · exact idsLe_refl _

theorem idsLe_foldl (step : BufState → Nat → BufState)
    (hstep : ∀ st i, IdsLe st.pages (step st i).pages) (is : List Nat) :
    ∀ s : BufState, IdsLe s.pages (List.foldl step s is).pages := by
  induction is with
  | nil => exact fun s => idsLe_refl _
  | cons a t ih => exact fun s => idsLe_trans (hstep s a) (ih (step s a))

theorem inv_flush_all (s : BufState) (h : BufInv s) : BufInv s.flush_all :=
  invP_of_idsLe (idsLe_foldl flushStep idsLe_flushStep _ s) h

theorem inv_flush_file (s : BufState) (f : String) (h : BufInv s) : BufInv (s.flush_file f) :=
  invP_of_idsLe (idsLe_foldl (flushFileStep f) (idsLe_flushFileStep f) _ s) h

theorem inv_invalidate (s : BufState) (f : String) (h : BufInv s) :
    BufInv (s.invalidate_file f) :=
  invP_of_idsLe (idsLe_foldl (invalidateStep f) (idsLe_invalidateStep f) _ s) h

theorem bufInvP_init (n : Nat) : BufInvP ((List.range n).map BufferPage.init) := by
  constructor
  · intro p hp hv
    obtain ⟨k, hk, rfl⟩ := List.mem_map.mp hp
    simp [BufferPage.init] at hv
  · intro i j hi hj hij hvi hvj
    exfalso
    rw [List.length_map, List.length_range] at hi
    have hgd : ((List.range n).map BufferPage.init).getD i (BufferPage.init i)
        = BufferPage.init i := by
      rw [List.getD_eq_getElem _ _ (by simpa using hi)]
      simp
    rw [hgd] at hvi
    simp [BufferPage.init] at hvi

/-! ## Claim C6: the buffer cache mapping invariant -/

/-- C6: in every buffer state reachable from a fresh pool by any sequence of
`load_block`, `write_block`, `flush_all`, `flush_file` and `invalidate_file`
operations, at most one valid page maps to any given (filename, block
number) pair, and every page either is invalid (free) or caches exactly one
real block (its single non-negative block number). -/
theorem c6_buffer_mapping_invariant (s : BufState) (h : BufReach s) : BufInv s := by
  induction h with
  | init n d => exact bufInvP_init n
  | load s f b pid hs ih => exact inv_load s f b pid ih
  | write s f b data pid hs ih => exact inv_write s f b data pid ih
  | flushAll s hs ih => exact inv_flush_all s ih
  | flushFile s f hs ih => exact inv_flush_file s f ih
  | invalidate s f hs ih => exact inv_invalidate s f ih

/-- Witness for C6: the invariant instantiated at a concrete reachable
state — a fresh 16-page pool over a fresh disk after loading block 35 and
writing block 36. -/
theorem c6_buffer_mapping_invariant_witness :
    BufInv (((BufState.init BUFFER_SIZE Disk.create).load_block "f" 35 (-1)).1.write_block
      "f" 36 (List.replicate 64 9) (-1)).1 :=
  c6_buffer_mapping_invariant _
    (BufReach.write _ "f" 36 (List.replicate 64 9) (-1)
      (BufReach.load _ "f" 35 (-1) (BufReach.init BUFFER_SIZE Disk.create)))

/-! ## Claim C8: idempotence of flush_all -/

theorem flushStep_eq_of_clean (st : BufState) (i : Nat)
    (h : ∀ p ∈ st.pages, ¬(p.is_valid = true ∧ p.is_dirty = true)) :
    flushStep st i = st := by
  have hcond : ((st.pages.getD i (BufferPage.init i)).is_valid
      && (st.pages.getD i (BufferPage.init i)).is_dirty) = false := by
    by_cases hi : i < st.pages.length
    · have hx := h _ (getD_mem_of_lt st.pages i (BufferPage.init i) hi)
      cases hv : (st.pages.getD i (BufferPage.init i)).is_valid <;>
        cases hd : (st.pages.getD i (BufferPage.init i)).is_dirty <;> simp_all
    · rw [List.getD_eq_default _ _ (by omega)]
      rfl
  simp only [flushStep]
  rw [if_neg (by rw [hcond]; simp)]

theorem flushFold_eq_of_clean (is : List Nat) (st : BufState)
    (h : ∀ p ∈ st.pages, ¬(p.is_valid = true ∧ p.is_dirty = true)) :
    List.foldl flushStep st is = st := by
  induction is with
  | nil => rfl
  | cons a t ih =>
    rw [List.foldl_cons, flushStep_eq_of_clean st a h, ih]

theorem flushStep_clean_self (st : BufState) (i : Nat) :
    ¬(((flushStep st i).pages.getD i (BufferPage.init i)).is_valid = true
      ∧ ((flushStep st i).pages.getD i (BufferPage.init i)).is_dirty = true) := by
  simp only [flushStep]
  split
  · rename_i hcond
    by_cases hi : i < st.pages.length
    · dsimp only
      rw [getD_set_self _ _ _ _ hi]
      simp
    · rw [List.getD_eq_default _ _ (by omega)] at hcond
      simp [BufferPage.init] at hcond
  · rename_i hcond
    intro hx
    rw [hx.1, hx.2] at hcond
    simp at hcond

theorem flushStep_clean_mono (st : BufState) (i j : Nat)
    (h : ¬((st.pages.getD j (BufferPage.init j)).is_valid = true
      ∧ (st.pages.getD j (BufferPage.init j)).is_dirty = true)) :
    ¬(((flushStep st i).pages.getD j (BufferPage.init j)).is_valid = true
      ∧ ((flushStep st i).pages.getD j (BufferPage.init j)).is_dirty = true) := by
  simp only [flushStep]
  split
  · by_cases hij : i = j
    · subst hij
      by_cases hi : i < st.pages.length
      · dsimp only
        rw [getD_set_self _ _ _ _ hi]
        simp
      · dsimp only
        rw [List.set_eq_of_length_le (by omega)]
        exact h
    · dsimp only
      rw [getD_set_ne _ _ _ _ _ hij]
      exact h
  · exact h

theorem flushFold_clean_mono (is : List Nat) (st : BufState) (j : Nat)
    (h : ¬((st.pages.getD j (BufferPage.init j)).is_valid = true
      ∧ (st.pages.getD j (BufferPage.init j)).is_dirty = true)) :
    ¬(((List.foldl flushStep st is).pages.getD j (BufferPage.init j)).is_valid = true
      ∧ ((List.foldl flushStep st is).pages.getD j (BufferPage.init j)).is_dirty = true) := by
  induction is generalizing st with
  | nil => exact h
  | cons a t ih => exact ih (flushStep st a) (flushStep_clean_mono st a j h)

theorem flushFold_clean (is : List Nat) (j : Nat) :
    ∀ st : BufState, j ∈ is →
    ¬(((List.foldl flushStep st is).pages.getD j (BufferPage.init j)).is_valid = true
      ∧ ((List.foldl flushStep st is).pages.getD j (BufferPage.init j)).is_dirty = true) := by
  induction is with
  | nil =>
    intro st hj
    cases hj
  | cons a t ih =>
    intro st hj
    rw [List.foldl_cons]
    rcases List.mem_cons.mp hj with heq | hmem
    · subst heq
      exact flushFold_clean_mono t (flushStep st j) j (flushStep_clean_self st j)
    · exact ih (flushStep st a) hmem

theorem flush_all_pages_clean (s : BufState) :
    ∀ p ∈ s.flush_all.pages, ¬(p.is_valid = true ∧ p.is_dirty = true) := by
  intro p hp
  obtain ⟨j, hj, hget⟩ := List.mem_iff_getElem.mp hp
  have hlen : s.flush_all.pages.length = s.pages.length :=
    (idsLe_foldl flushStep idsLe_flushStep _ s).1
  have hj2 : j ∈ List.range s.pages.length := by
    rw [List.mem_range]
    omega
  have hx := flushFold_clean (List.range s.pages.length) j s hj2
  unfold BufState.flush_all at hget
  have hj3 : j < (List.foldl flushStep s (List.range s.pages.length)).pages.length := hj
  rw [List.getD_eq_getElem _ (BufferPage.init j) hj3, hget] at hx
  exact hx

/-- C8: for every buffer state, a second `flush_all` in a row is a complete
no-op — it performs zero additional write-backs, and leaves the write-back
counter, every page, the recency list and the disk exactly unchanged;
after one `flush_all` no valid page remains dirty. -/
theorem c8_flush_all_idempotent (s : BufState) :
    s.flush_all.flush_all = s.flush_all
    ∧ s.flush_all.flush_all.writeback_count = s.flush_all.writeback_count
    ∧ ∀ p ∈ s.flush_all.pages, p.is_valid = true → p.is_dirty = false := by
  have hclean := flush_all_pages_clean s
  have heq : s.flush_all.flush_all = s.flush_all := by
    conv in s.flush_all.flush_all => unfold BufState.flush_all
    exact flushFold_eq_of_clean _ _ hclean
  refine ⟨heq, by rw [heq], fun p hp hv => ?_⟩
  cases hd : p.is_dirty
  · rfl
  · exact absurd ⟨hv, hd⟩ (hclean p hp)

/-! ## Helper lemmas for the LRU fill/eviction analysis (claim C7) -/

theorem findIdx?_eq_some_of_first {α : Type} (l : List α) (p : α → Bool) (k : Nat) (d : α)
    (hk : k < l.length)
    (hbefore : ∀ j, j < k → p (l.getD j d) = false)
    (hat : p (l.getD k d) = true) : l.findIdx? p = some k := by
  induction l generalizing k with
  | nil => simp at hk
  | cons a t ih =>
    rw [List.findIdx?_cons]
    cases k with
    | zero =>
      rw [List.getD_cons_zero] at hat
      rw [hat]
      rfl
    | succ m =>
      have h0 : p a = false := by
        have := hbefore 0 (by omega)
        rwa [List.getD_cons_zero] at this
      rw [h0]
      simp only [Bool.false_eq_true, if_false]
      have hr : t.findIdx? p = some m := by
        apply ih m (by simpa using hk)
        · intro j hj
          have := hbefore (j + 1) (by omega)
          rwa [List.getD_cons_succ] at this
        · rwa [List.getD_cons_succ] at hat
      rw [List.findIdx?_succ, hr]
      rfl

theorem readBlockN_writeBlockN (d : Disk) (n : Nat) (bytes : List Nat) :
    (d.writeBlockN n bytes).readBlockN n = ljust0 (bytes.take BLOCK_SIZE) BLOCK_SIZE := by
  have hplen : (ljust0 (bytes.take BLOCK_SIZE) BLOCK_SIZE).length = BLOCK_SIZE :=
    ljust0_length _ _ (by simp [BLOCK_SIZE])
  simp only [Disk.writeBlockN, Disk.readBlockN, Disk.readBytes]
  have hsz : min BLOCK_SIZE (max d.size (n * BLOCK_SIZE + BLOCK_SIZE) - n * BLOCK_SIZE)
      = BLOCK_SIZE := by omega
  rw [hsz]
  have hpt : ∀ i ∈ List.range BLOCK_SIZE,
      (if n * BLOCK_SIZE ≤ n * BLOCK_SIZE + i ∧ n * BLOCK_SIZE + i < n * BLOCK_SIZE + BLOCK_SIZE
        then (ljust0 (bytes.take BLOCK_SIZE) BLOCK_SIZE).getD (n * BLOCK_SIZE + i - n * BLOCK_SIZE) 0
        else if n * BLOCK_SIZE + i < d.size then d.data (n * BLOCK_SIZE + i) else 0)
      = (ljust0 (bytes.take BLOCK_SIZE) BLOCK_SIZE).getD i 0 := by
    intro i hi
    rw [List.mem_range] at hi
    rw [if_pos (by omega)]
    congr 1
    omega
  rw [List.map_congr_left hpt]
  exact map_getD_range _ 0 BLOCK_SIZE hplen

theorem no_hit_of_fresh (s : BufState) (f : String) (b : Nat) (k : Nat)
    (hlen : s.pages.length = 16) (hk : k ≤ 16)
    (hvalid : ∀ j, j < 16 → ((s.pages.getD j (BufferPage.init j)).is_valid = true ↔ j < k))
    (hfresh : ∀ j, j < k → ¬((s.pages.getD j (BufferPage.init j)).filename = f
        ∧ (s.pages.getD j (BufferPage.init j)).block_num = (b : Int))) :
    s.pages.findIdx?
      (fun p => p.is_valid && p.block_num == (b : Int) && p.filename == f) = none := by
  apply List.findIdx?_eq_none_iff.mpr
  intro x hx
  obtain ⟨j, hj, hget⟩ := List.mem_iff_getElem.mp hx
  rw [hlen] at hj
  have hget2 : s.pages.getD j (BufferPage.init j) = x := by
    rw [List.getD_eq_getElem _ _ (by rw [hlen]; omega), hget]
  by_cases hv : x.is_valid = true
  · have hjk : j < k := (hvalid j hj).mp (by rw [hget2]; exact hv)
    have hnm := hfresh j hjk
    rw [hget2] at hnm
    cases hbn : x.block_num == (b : Int) <;> cases hfn : x.filename == f <;>
      simp_all [beq_iff_eq]
  · have hvf : x.is_valid = false := by
      cases hx2 : x.is_valid
      · rfl
      · exact absurd hx2 hv
    rw [hvf]
    rfl

theorem load_fresh_step (s : BufState) (f : String) (b : Nat) (k : Nat)
    (hlen : s.pages.length = 16) (hk : k < 16)
    (hvalid : ∀ j, j < 16 → ((s.pages.getD j (BufferPage.init j)).is_valid = true ↔ j < k))
    (hfresh : ∀ j, j < k → ¬((s.pages.getD j (BufferPage.init j)).filename = f
        ∧ (s.pages.getD j (BufferPage.init j)).block_num = (b : Int)))
    (hlru : s.lru_order = List.range k) :
    s.load_block f b (-1) = ({ s with
      miss_count := s.miss_count + 1
      pages := s.pages.set k ({ s.pages.getD k (BufferPage.init k) with
        block_num := (b : Int)
        filename := f
        data := s.disk.readBlockN b
        is_valid := true
        is_dirty := false
        owner_pid := -1
        access_count := 1 })
      lru_order := s.lru_order ++ [k] }, some (k, s.disk.readBlockN b)) := by
  have hnone := no_hit_of_fresh s f b k hlen (by omega) hvalid hfresh
  have hfree : BufState.find_free_page { s with miss_count := s.miss_count + 1 }
      = some k := by
    unfold BufState.find_free_page
    dsimp only
    apply findIdx?_eq_some_of_first _ _ k (BufferPage.init k) (by omega)
    · intro j hj
      have hgd : s.pages.getD j (BufferPage.init k) = s.pages.getD j (BufferPage.init j) := by
        rw [List.getD_eq_getElem _ _ (by omega), List.getD_eq_getElem _ _ (by omega)]
      rw [hgd]
      have hv := (hvalid j (by omega)).mpr hj
      rw [hv]
      rfl
    · have hv : (s.pages.getD k (BufferPage.init k)).is_valid = false := by
        cases hx2 : (s.pages.getD k (BufferPage.init k)).is_valid
        · rfl
        · exact absurd ((hvalid k (by omega)).mp hx2) (by omega)
      rw [hv]
      rfl
  simp only [BufState.load_block]
  rw [hnone]
  rw [hfree]
  simp only [BufState.install_page, BufState.update_lru]
  rw [hlru]
  rw [if_neg (by simp)]

theorem getD_append_left {α : Type} (l1 l2 : List α) (n : Nat) (d : α) (h : n < l1.length) :
    (l1 ++ l2).getD n d = l1.getD n d := by
  rw [List.getD_eq_getElem?_getD, List.getElem?_append_left h, ← List.getD_eq_getElem?_getD]

theorem getD_append_right {α : Type} (l1 l2 : List α) (n : Nat) (d : α) (h : l1.length ≤ n) :
    (l1 ++ l2).getD n d = l2.getD (n - l1.length) d := by
  rw [List.getD_eq_getElem?_getD, List.getElem?_append_right h, ← List.getD_eq_getElem?_getD]

theorem loadSeq_fill (qs : List (String × Nat)) :
    ∀ (s : BufState) (k : Nat) (ps : List (String × Nat)),
    s.pages.length = 16 →
    k + qs.length ≤ 16 →
    ps.length = k →
    (∀ j, j < 16 → ((s.pages.getD j (BufferPage.init j)).is_valid = true ↔ j < k)) →
    (∀ j, j < k →
      (s.pages.getD j (BufferPage.init j)).filename = (ps.getD j ("", 0)).1
      ∧ (s.pages.getD j (BufferPage.init j)).block_num = (((ps.getD j ("", 0)).2 : Nat) : Int)) →
    s.lru_order = List.range k →
    (ps ++ qs).Pairwise (· ≠ ·) →
    (loadSeq s qs).pages.length = 16
    ∧ (∀ j, j < 16 →
        (((loadSeq s qs).pages.getD j (BufferPage.init j)).is_valid = true ↔ j < k + qs.length))
    ∧ (∀ j, j < k + qs.length →
        ((loadSeq s qs).pages.getD j (BufferPage.init j)).filename = ((ps ++ qs).getD j ("", 0)).1
        ∧ ((loadSeq s qs).pages.getD j (BufferPage.init j)).block_num
          = ((((ps ++ qs).getD j ("", 0)).2 : Nat) : Int))
    ∧ (loadSeq s qs).lru_order = List.range (k + qs.length)
    ∧ (loadSeq s qs).writeback_count = s.writeback_count
    ∧ (loadSeq s qs).disk = s.disk
    ∧ (∀ j, j < k →
        (loadSeq s qs).pages.getD j (BufferPage.init j)
          = s.pages.getD j (BufferPage.init j))
    ∧ (∀ j, k ≤ j → j < k + qs.length →
        ((loadSeq s qs).pages.getD j (BufferPage.init j)).is_dirty = false) := by
  induction qs with
  | nil =>
    intro s k ps hlen hle hps hvalid hids hlru hdist
    refine ⟨hlen, by simpa using hvalid, ?_, by simpa using hlru, rfl, rfl, fun j hj => rfl,
      fun j h1 h2 => absurd h2 (by simp; omega)⟩
    intro j hj
    have := hids j (by simpa using hj)
    simpa using this
  | cons q qt ih =>
    intro s k ps hlen hle hps hvalid hids hlru hdist
    have hk16 : k < 16 := by
      have hlq : (q :: qt).length = qt.length + 1 := rfl
      omega
    have hgetk : (ps ++ q :: qt).getD k ("", 0) = q := by
      rw [getD_append_right _ _ _ _ (by omega), hps]
      simp
    have hfresh : ∀ j, j < k → ¬((s.pages.getD j (BufferPage.init j)).filename = q.1
        ∧ (s.pages.getD j (BufferPage.init j)).block_num = ((q.2 : Nat) : Int)) := by
      intro j hj hmatch
      have hid := hids j hj
      have hdq : ps.getD j ("", 0) = q := by
        refine Prod.ext_iff.mpr ⟨?_, ?_⟩
        · rw [← hid.1, hmatch.1]
        · have hb : (((ps.getD j ("", 0)).2 : Nat) : Int) = ((q.2 : Nat) : Int) := by
            rw [← hid.2, hmatch.2]
          exact_mod_cast hb
      have hgetj : (ps ++ q :: qt).getD j ("", 0) = ps.getD j ("", 0) :=
        getD_append_left _ _ _ _ (by omega)
      have hlendist : (ps ++ q :: qt).length = k + (qt.length + 1) := by
        simp [hps]
      have hpair := List.pairwise_iff_getElem.mp hdist j k
        (by omega) (by omega) hj
      apply hpair
      rw [← List.getD_eq_getElem _ ("", 0), ← List.getD_eq_getElem _ ("", 0), hgetj, hgetk, hdq]
    have hstep := load_fresh_step s q.1 q.2 k hlen hk16 hvalid hfresh hlru
    have hls : loadSeq s (q :: qt) = loadSeq (s.load_block q.1 q.2 (-1)).1 qt := rfl
    rw [hls, hstep]
    set newp := { s.pages.getD k (BufferPage.init k) with
      block_num := ((q.2 : Nat) : Int)
      filename := q.1
      data := s.disk.readBlockN q.2
      is_valid := true
      is_dirty := false
      owner_pid := -1
      access_count := 1 } with hnewp
    set s2 : BufState := { s with
      miss_count := s.miss_count + 1
      pages := s.pages.set k newp
      lru_order := s.lru_order ++ [k] } with hs2
    have hlen2 : s2.pages.length = 16 := by
      simp [hs2, List.length_set, hlen]
    have hvalid2 : ∀ j, j < 16 → ((s2.pages.getD j (BufferPage.init j)).is_valid = true ↔ j < k + 1) := by
      intro j hj
      by_cases hjk : k = j
      · subst hjk
        rw [show s2.pages = s.pages.set k newp from rfl, getD_set_self _ _ _ _ (by omega)]
        simp [hnewp]
      · rw [show s2.pages = s.pages.set k newp from rfl, getD_set_ne _ _ _ _ _ hjk]
        rw [hvalid j hj]
        omega
    have hids2 : ∀ j, j < k + 1 →
        (s2.pages.getD j (BufferPage.init j)).filename = ((ps ++ [q]).getD j ("", 0)).1
        ∧ (s2.pages.getD j (BufferPage.init j)).block_num
          = ((((ps ++ [q]).getD j ("", 0)).2 : Nat) : Int) := by
      intro j hj
      by_cases hjk : k = j
      · subst hjk
        rw [show s2.pages = s.pages.set k newp from rfl, getD_set_self _ _ _ _ (by omega)]
        have hgq : (ps ++ [q]).getD k ("", 0) = q := by
          rw [getD_append_right _ _ _ _ (by omega), hps]
          simp
        rw [hgq]
        exact ⟨rfl, rfl⟩
      · have hjk2 : j < k := by omega
        rw [show s2.pages = s.pages.set k newp from rfl, getD_set_ne _ _ _ _ _ hjk]
        have hgj : (ps ++ [q]).getD j ("", 0) = ps.getD j ("", 0) :=
          getD_append_left _ _ _ _ (by omega)
        rw [hgj]
        exact hids j hjk2
    have hlru2 : s2.lru_order = List.range (k + 1) := by
      rw [show s2.lru_order = s.lru_order ++ [k] from rfl, hlru, List.range_succ]
    have hdist2 : ((ps ++ [q]) ++ qt).Pairwise (· ≠ ·) := by
      rw [List.append_assoc, List.singleton_append]
      exact hdist
    obtain ⟨g1, g2, g3, g4, g5, g6, g7, g8⟩ := ih s2 (k + 1) (ps ++ [q]) hlen2
      (by have hlq : (q :: qt).length = qt.length + 1 := rfl; omega)
      (by simp [hps]) hvalid2 hids2 hlru2 hdist2
    have happ : (ps ++ [q]) ++ qt = ps ++ q :: qt := by
      rw [List.append_assoc, List.singleton_append]
    rw [happ] at g3
    have harith : k + 1 + qt.length = k + (qt.length + 1) := by omega
    rw [harith] at g2 g3 g4
    refine ⟨g1, g2, g3, g4, g5, g6, ?_, ?_⟩
    · intro j hj
      rw [g7 j (by omega)]
      rw [show s2.pages = s.pages.set k newp from rfl, getD_set_ne _ _ _ _ _ (by omega)]
    · intro j h1 h2
      by_cases hjk : j = k
      · subst hjk
        rw [g7 j (by omega)]
        rw [show s2.pages = s.pages.set j newp from rfl, getD_set_self _ _ _ _ (by omega)]
      · have hlq : (q :: qt).length = qt.length + 1 := rfl
        exact g8 j (by omega) (by omega)

theorem load_evict_step (s : BufState) (f : String) (b : Nat)
    (hlen : s.pages.length = 16)
    (hvalid : ∀ j, j < 16 → (s.pages.getD j (BufferPage.init j)).is_valid = true)
    (hfresh : ∀ j, j < 16 → ¬((s.pages.getD j (BufferPage.init j)).filename = f
        ∧ (s.pages.getD j (BufferPage.init j)).block_num = (b : Int)))
    (hlru : s.lru_order = List.range 16) :
    s.load_block f b (-1) = ({ s with
      miss_count := s.miss_count + 1
      writeback_count := s.writeback_count
        + (if (s.pages.getD 0 (BufferPage.init 0)).is_dirty then 1 else 0)
      disk := (if (s.pages.getD 0 (BufferPage.init 0)).is_dirty
        then s.disk.writeBlockN (s.pages.getD 0 (BufferPage.init 0)).block_num.toNat
          (s.pages.getD 0 (BufferPage.init 0)).data
        else s.disk)
      pages := s.pages.set 0 ({ s.pages.getD 0 (BufferPage.init 0) with
        block_num := (b : Int)
        filename := f
        data := (if (s.pages.getD 0 (BufferPage.init 0)).is_dirty
          then s.disk.writeBlockN (s.pages.getD 0 (BufferPage.init 0)).block_num.toNat
            (s.pages.getD 0 (BufferPage.init 0)).data
          else s.disk).readBlockN b
        is_valid := true
        is_dirty := false
        owner_pid := -1
        access_count := 1 })
      lru_order := (List.range 16).erase 0 ++ [0] },
      some (0, (if (s.pages.getD 0 (BufferPage.init 0)).is_dirty
        then s.disk.writeBlockN (s.pages.getD 0 (BufferPage.init 0)).block_num.toNat
          (s.pages.getD 0 (BufferPage.init 0)).data
        else s.disk).readBlockN b)) := by
  have hvalidIff : ∀ j, j < 16 → ((s.pages.getD j (BufferPage.init j)).is_valid = true ↔ j < 16) :=
    fun j hj => ⟨fun _ => hj, fun _ => hvalid j hj⟩
  have hnone := no_hit_of_fresh s f b 16 hlen (by omega) hvalidIff hfresh
  have hfreeNone : BufState.find_free_page { s with miss_count := s.miss_count + 1 }
      = none := by
    unfold BufState.find_free_page
    dsimp only
    apply List.findIdx?_eq_none_iff.mpr
    intro x hx
    obtain ⟨j, hj, hget⟩ := List.mem_iff_getElem.mp hx
    rw [hlen] at hj
    have hget2 : s.pages.getD j (BufferPage.init j) = x := by
      rw [List.getD_eq_getElem _ _ (by omega), hget]
    have hv := hvalid j hj
    rw [hget2] at hv
    rw [hv]
    rfl
  have hv0 := hvalid 0 (by omega)
  simp only [BufState.load_block]
  rw [hnone, hfreeNone]
  have hlruHead : BufState.find_lru_page { s with miss_count := s.miss_count + 1 }
      = some 0 := by
    unfold BufState.find_lru_page
    dsimp only
    rw [hlru]
    rfl
  rw [hlruHead]
  simp only [BufState.evict_page, BufState.remove_from_lru, BufState.install_page,
    BufState.update_lru]
  rw [show ({ s with miss_count := s.miss_count + 1 } : BufState).pages.getD 0
    (BufferPage.init 0) = s.pages.getD 0 (BufferPage.init 0) from rfl]
  rw [hv0]
  simp only [Bool.not_true, Bool.false_eq_true, if_false]
  by_cases hd : (s.pages.getD 0 (BufferPage.init 0)).is_dirty
  · rw [if_pos hd]
    dsimp only
    rw [getD_set_self _ _ _ _ (by omega), List.set_set, hlru]
    rw [if_neg (by decide)]
    rw [List.getD_eq_getElem?_getD] at hd
    simp [hd]
  · rw [if_neg hd]
    dsimp only
    rw [getD_set_self _ _ _ _ (by omega), List.set_set, hlru]
    rw [if_neg (by decide)]
    rw [List.getD_eq_getElem?_getD] at hd
    simp [hd]

theorem init_getD (n : Nat) (j : Nat) (hj : j < n) :
    ((List.range n).map BufferPage.init).getD j (BufferPage.init j) = BufferPage.init j := by
  rw [List.getD_eq_getElem _ _ (by simpa using hj)]
  simp

theorem init_fill_shape (d : Disk) :
    (BufState.init 16 d).pages.length = 16
    ∧ (∀ j, j < 16 →
        (((BufState.init 16 d).pages.getD j (BufferPage.init j)).is_valid = true ↔ j < 0))
    ∧ (BufState.init 16 d).lru_order = List.range 0 := by
  refine ⟨by simp [BufState.init], ?_, rfl⟩
  intro j hj
  rw [show (BufState.init 16 d).pages = (List.range 16).map BufferPage.init from rfl,
    init_getD 16 j hj]
  simp [BufferPage.init]

theorem write_first_pair (d : Disk) (f0 : String) (b0 : Nat) (wdata : List Nat) :
    ((((BufState.init 16 d).load_block f0 b0 (-1)).1).write_block f0 b0 wdata (-1)).1
      = { pages := ((List.range 16).map BufferPage.init).set 0
            { page_id := 0, block_num := (b0 : Int), filename := f0
              data := ljust0 (wdata.take BLOCK_SIZE) BLOCK_SIZE
              is_dirty := true, is_valid := true, owner_pid := -1, access_count := 2 }
          lru_order := [0], hit_count := 1, miss_count := 1, writeback_count := 0
          disk := d } := by
  obtain ⟨hlen0, hvalid0, hlru0⟩ := init_fill_shape d
  have hstep := load_fresh_step (BufState.init 16 d) f0 b0 0 hlen0 (by omega)
    hvalid0 (by omega) hlru0
  rw [show ((BufState.init 16 d).pages.getD 0 (BufferPage.init 0)) = BufferPage.init 0 from
    init_getD 16 0 (by omega)] at hstep
  simp only [BufState.write_block]
  rw [hstep]
  set p1 : BufferPage := { BufferPage.init 0 with
    block_num := (b0 : Int)
    filename := f0
    data := (BufState.init 16 d).disk.readBlockN b0
    is_valid := true
    is_dirty := false
    owner_pid := -1
    access_count := 1 } with hp1
  set s1 : BufState := { BufState.init 16 d with
    miss_count := (BufState.init 16 d).miss_count + 1
    pages := (BufState.init 16 d).pages.set 0 p1
    lru_order := (BufState.init 16 d).lru_order ++ [0] } with hs1
  have hfind : s1.pages.findIdx?
      (fun p => p.is_valid && p.block_num == (b0 : Int) && p.filename == f0) = some 0 := by
    apply findIdx?_eq_some_of_first _ _ 0 (BufferPage.init 0)
      (by simp [hs1, BufState.init])
    · omega
    · rw [show s1.pages = ((List.range 16).map BufferPage.init).set 0 p1 from rfl,
        getD_set_self _ _ _ _ (by simp)]
      simp [hp1]
  simp only [BufState.load_block]
  rw [hfind]
  simp only [BufState.update_lru]
  split
  · simp only [hs1, hp1, BufState.init]
    rw [getD_set_self _ _ _ _ (by simp), List.set_set]
    rw [getD_set_self _ _ _ _ (by simp [List.length_set]), List.set_set]
    simp [BufferPage.init]
  · rename_i hmem
    exact absurd (by simp [hs1, BufState.init] : (0 : Nat) ∈ s1.lru_order) hmem

theorem getD_take {α : Type} (l : List α) (n j : Nat) (d : α) (h : j < n) :
    (l.take n).getD j d = l.getD j d := by
  rw [List.getD_eq_getElem?_getD, List.getElem?_take_of_lt h, ← List.getD_eq_getElem?_getD]

theorem pair_ne_of_idfields {x : BufferPage} {a q : String × Nat}
    (hf : x.filename = a.1) (hb : x.block_num = ((a.2 : Nat) : Int)) (hne : a ≠ q) :
    ¬(x.filename = q.1 ∧ x.block_num = ((q.2 : Nat) : Int)) := by
  intro hmatch
  apply hne
  refine Prod.ext_iff.mpr ⟨?_, ?_⟩
  · rw [← hf, hmatch.1]
  · have hcast : ((a.2 : Nat) : Int) = ((q.2 : Nat) : Int) := by
      rw [← hb, hmatch.2]
    exact_mod_cast hcast

theorem c7_variantA (d : Disk) (ps : List (String × Nat))
    (hlen : ps.length = 17) (hdist : ps.Pairwise (· ≠ ·)) :
    (loadSeq (BufState.init 16 d) ps).writeback_count = 0
    ∧ ((loadSeq (BufState.init 16 d) ps).pages.getD 0 (BufferPage.init 0)).is_valid = true
    ∧ ((loadSeq (BufState.init 16 d) ps).pages.getD 0 (BufferPage.init 0)).filename
        = (ps.getD 16 ("", 0)).1
    ∧ ((loadSeq (BufState.init 16 d) ps).pages.getD 0 (BufferPage.init 0)).block_num
        = (((ps.getD 16 ("", 0)).2 : Nat) : Int)
    ∧ (∀ j, 1 ≤ j → j < 16 →
        ((loadSeq (BufState.init 16 d) ps).pages.getD j (BufferPage.init j)).is_valid = true
        ∧ ((loadSeq (BufState.init 16 d) ps).pages.getD j (BufferPage.init j)).filename
            = (ps.getD j ("", 0)).1
        ∧ ((loadSeq (BufState.init 16 d) ps).pages.getD j (BufferPage.init j)).block_num
            = (((ps.getD j ("", 0)).2 : Nat) : Int))
    ∧ (∀ j, j < 16 →
        ¬(((loadSeq (BufState.init 16 d) ps).pages.getD j (BufferPage.init j)).filename
            = (ps.getD 0 ("", 0)).1
          ∧ ((loadSeq (BufState.init 16 d) ps).pages.getD j (BufferPage.init j)).block_num
            = (((ps.getD 0 ("", 0)).2 : Nat) : Int))) := by
  rcases ps with _ | ⟨p0, pt⟩
  · simp at hlen
  have hptlen : pt.length = 16 := by simpa using hlen
  have hhead : ∀ x ∈ pt, p0 ≠ x := (List.pairwise_cons.mp hdist).1
  have hptdist : pt.Pairwise (· ≠ ·) := (List.pairwise_cons.mp hdist).2
  have hptget_ne : ∀ i j, i < j → j < 16 → pt.getD i ("", 0) ≠ pt.getD j ("", 0) := by
    intro i j hij hj
    rw [List.getD_eq_getElem _ _ (by omega), List.getD_eq_getElem _ _ (by omega)]
    exact List.pairwise_iff_getElem.mp hptdist i j (by omega) (by omega) hij
  have hq15 : pt.getD 15 ("", 0) ∈ pt := getD_mem_of_lt pt 15 ("", 0) (by omega)
  have hdecomp : (p0 :: pt) = (p0 :: pt.take 15) ++ [pt.getD 15 ("", 0)] := by
    have h1 : pt.drop 15 = [pt.getD 15 ("", 0)] := by
      rw [List.drop_eq_getElem_cons (by omega), List.drop_eq_nil_of_le (by omega),
        List.getD_eq_getElem _ _ (by omega)]
    rw [List.cons_append]
    congr 1
    rw [← h1]
    exact (List.take_append_drop 15 pt).symm
  have hseq : loadSeq (BufState.init 16 d) (p0 :: pt)
      = ((loadSeq (BufState.init 16 d) (p0 :: pt.take 15)).load_block
          (pt.getD 15 ("", 0)).1 (pt.getD 15 ("", 0)).2 (-1)).1 := by
    rw [hdecomp]
    simp [loadSeq, List.foldl_append]
  obtain ⟨hlenS, hvalid0, hlru0⟩ := init_fill_shape d
  have hseg16 : (p0 :: pt.take 15).length = 16 := by
    simp [List.length_take]
    omega
  obtain ⟨g1, g2, g3, g4, g5, g6, g7, g8⟩ := loadSeq_fill (p0 :: pt.take 15)
    (BufState.init 16 d) 0 [] hlenS (by rw [hseg16]) rfl hvalid0
    (fun j hj => absurd hj (by omega)) hlru0
    (by
      rw [List.nil_append]
      exact List.Pairwise.sublist (List.Sublist.cons₂ p0 (List.take_sublist 15 pt)) hdist)
  simp only [List.nil_append, Nat.zero_add] at g2 g3 g4
  rw [hseg16] at g2 g3 g4
  set mid := loadSeq (BufState.init 16 d) (p0 :: pt.take 15) with hmid
  have hsegid : ∀ j, j < 16 → (p0 :: pt.take 15).getD j ("", 0) = (p0 :: pt).getD j ("", 0) := by
    intro j hj
    cases j with
    | zero => rfl
    | succ m =>
      rw [List.getD_cons_succ, List.getD_cons_succ, getD_take _ _ _ _ (by omega)]
  have hmidvalid : ∀ j, j < 16 → (mid.pages.getD j (BufferPage.init j)).is_valid = true :=
    fun j hj => (g2 j hj).mpr hj
  have hmidfresh : ∀ j, j < 16 →
      ¬((mid.pages.getD j (BufferPage.init j)).filename = (pt.getD 15 ("", 0)).1
        ∧ (mid.pages.getD j (BufferPage.init j)).block_num
          = (((pt.getD 15 ("", 0)).2 : Nat) : Int)) := by
    intro j hj
    have hid := g3 j (by omega)
    rw [hsegid j hj] at hid
    apply pair_ne_of_idfields hid.1 hid.2
    cases j with
    | zero => exact hhead _ hq15
    | succ m =>
      rw [List.getD_cons_succ]
      exact hptget_ne m 15 (by omega) (by omega)
  have hevict := load_evict_step mid (pt.getD 15 ("", 0)).1 (pt.getD 15 ("", 0)).2
    g1 hmidvalid hmidfresh g4
  have hdirty0 : (mid.pages.getD 0 (BufferPage.init 0)).is_dirty = false :=
    g8 0 (by omega) (by omega)
  rw [hseq, hevict]
  dsimp only
  constructor
  · rw [hdirty0]
    simp [g5, BufState.init]
  refine ⟨?_, ?_, ?_, ?_, ?_⟩
  · rw [getD_set_self _ _ _ _ (by omega)]
  · rw [getD_set_self _ _ _ _ (by omega), List.getD_cons_succ]
  · rw [getD_set_self _ _ _ _ (by omega), List.getD_cons_succ]
  · intro j h1 h16
    rw [getD_set_ne _ _ _ _ _ (by omega)]
    have hid := g3 j (by omega)
    rw [hsegid j (by omega)] at hid
    exact ⟨hmidvalid j (by omega), hid.1, hid.2⟩
  · intro j hj
    by_cases hj0 : j = 0
    · subst hj0
      rw [getD_set_self _ _ _ _ (by omega)]
      apply pair_ne_of_idfields (x := { mid.pages.getD 0 (BufferPage.init 0) with
        block_num := ((pt.getD 15 ("", 0)).2 : Nat)
        filename := (pt.getD 15 ("", 0)).1
        data := (if (mid.pages.getD 0 (BufferPage.init 0)).is_dirty = true
          then mid.disk.writeBlockN (mid.pages.getD 0 (BufferPage.init 0)).block_num.toNat
            (mid.pages.getD 0 (BufferPage.init 0)).data
          else mid.disk).readBlockN (pt.getD 15 ("", 0)).2
        is_valid := true
        is_dirty := false
        owner_pid := -1
        access_count := 1 }) rfl rfl
      rw [List.getD_cons_zero]
      intro heq
      exact hhead _ hq15 heq.symm
    · rw [getD_set_ne _ _ _ _ _ (by omega)]
      have hid := g3 j (by omega)
      rw [hsegid j (by omega)] at hid
      apply pair_ne_of_idfields hid.1 hid.2
      cases j with
      | zero => exact absurd rfl hj0
      | succ m =>
        rw [List.getD_cons_succ, List.getD_cons_zero]
        intro heq
        have hmem : pt.getD m ("", 0) ∈ pt := getD_mem_of_lt pt m ("", 0) (by omega)
        exact hhead _ hmem heq.symm

theorem ljust0_self (l : List Nat) (n : Nat) (h : l.length = n) : ljust0 l n = l := by
  unfold ljust0
  rw [h]
  simp

theorem c7_variantB (d : Disk) (ps : List (String × Nat)) (wdata : List Nat)
    (hlen : ps.length = 17) (hdist : ps.Pairwise (· ≠ ·)) :
    (loadSeq ((((BufState.init 16 d).load_block (ps.getD 0 ("", 0)).1 (ps.getD 0 ("", 0)).2
        (-1)).1).write_block (ps.getD 0 ("", 0)).1 (ps.getD 0 ("", 0)).2 wdata (-1)).1
        (ps.drop 1)).writeback_count = 1
    ∧ (loadSeq ((((BufState.init 16 d).load_block (ps.getD 0 ("", 0)).1 (ps.getD 0 ("", 0)).2
        (-1)).1).write_block (ps.getD 0 ("", 0)).1 (ps.getD 0 ("", 0)).2 wdata (-1)).1
        (ps.drop 1)).disk.readBlockN (ps.getD 0 ("", 0)).2
        = ljust0 (wdata.take BLOCK_SIZE) BLOCK_SIZE
    ∧ ((loadSeq ((((BufState.init 16 d).load_block (ps.getD 0 ("", 0)).1 (ps.getD 0 ("", 0)).2
        (-1)).1).write_block (ps.getD 0 ("", 0)).1 (ps.getD 0 ("", 0)).2 wdata (-1)).1
        (ps.drop 1)).pages.getD 0 (BufferPage.init 0)).is_valid = true
    ∧ ((loadSeq ((((BufState.init 16 d).load_block (ps.getD 0 ("", 0)).1 (ps.getD 0 ("", 0)).2
        (-1)).1).write_block (ps.getD 0 ("", 0)).1 (ps.getD 0 ("", 0)).2 wdata (-1)).1
        (ps.drop 1)).pages.getD 0 (BufferPage.init 0)).filename = (ps.getD 16 ("", 0)).1
    ∧ ((loadSeq ((((BufState.init 16 d).load_block (ps.getD 0 ("", 0)).1 (ps.getD 0 ("", 0)).2
        (-1)).1).write_block (ps.getD 0 ("", 0)).1 (ps.getD 0 ("", 0)).2 wdata (-1)).1
        (ps.drop 1)).pages.getD 0 (BufferPage.init 0)).block_num
        = (((ps.getD 16 ("", 0)).2 : Nat) : Int) := by
  rcases ps with _ | ⟨p0, pt⟩
  · simp at hlen
  have hptlen : pt.length = 16 := by simpa using hlen
  have hhead : ∀ x ∈ pt, p0 ≠ x := (List.pairwise_cons.mp hdist).1
  have hptdist : pt.Pairwise (· ≠ ·) := (List.pairwise_cons.mp hdist).2
  have hptget_ne : ∀ i j, i < j → j < 16 → pt.getD i ("", 0) ≠ pt.getD j ("", 0) := by
    intro i j hij hj
    rw [List.getD_eq_getElem _ _ (by omega), List.getD_eq_getElem _ _ (by omega)]
    exact List.pairwise_iff_getElem.mp hptdist i j (by omega) (by omega) hij
  have hq15 : pt.getD 15 ("", 0) ∈ pt := getD_mem_of_lt pt 15 ("", 0) (by omega)
  rw [show ((p0 :: pt).getD 0 ("", 0)) = p0 from rfl,
    show ((p0 :: pt).getD 16 ("", 0)) = pt.getD 15 ("", 0) from List.getD_cons_succ,
    show ((p0 :: pt).drop 1) = pt from rfl]
  rw [write_first_pair d p0.1 p0.2 wdata]
  set dpage : BufferPage := BufferPage.mk 0 (p0.2 : Int) p0.1
    (ljust0 (wdata.take BLOCK_SIZE) BLOCK_SIZE) true true (-1) 2 with hdpage
  set W : BufState := BufState.mk (((List.range 16).map BufferPage.init).set 0 dpage)
    [0] 1 1 0 d with hW
  have hWlen : W.pages.length = 16 := by simp [hW]
  have hWvalid : ∀ j, j < 16 → ((W.pages.getD j (BufferPage.init j)).is_valid = true ↔ j < 1) := by
    intro j hj
    by_cases hj0 : (0 : Nat) = j
    · subst hj0
      rw [show W.pages = ((List.range 16).map BufferPage.init).set 0 dpage from rfl,
        getD_set_self _ _ _ _ (by simp)]
      simp [hdpage]
    · rw [show W.pages = ((List.range 16).map BufferPage.init).set 0 dpage from rfl,
        getD_set_ne _ _ _ _ _ hj0, init_getD 16 j hj]
      simp [BufferPage.init]
      omega
  have hWids : ∀ j, j < 1 →
      (W.pages.getD j (BufferPage.init j)).filename = (([p0]).getD j ("", 0)).1
      ∧ (W.pages.getD j (BufferPage.init j)).block_num
        = (((([p0]).getD j ("", 0)).2 : Nat) : Int) := by
    intro j hj
    have hj0 : j = 0 := by omega
    subst hj0
    rw [show W.pages = ((List.range 16).map BufferPage.init).set 0 dpage from rfl,
      getD_set_self _ _ _ _ (by simp)]
    exact ⟨rfl, rfl⟩
  have hdecomp : pt = pt.take 15 ++ [pt.getD 15 ("", 0)] := by
    have h1 : pt.drop 15 = [pt.getD 15 ("", 0)] := by
      rw [List.drop_eq_getElem_cons (by omega), List.drop_eq_nil_of_le (by omega),
        List.getD_eq_getElem _ _ (by omega)]
    rw [← h1]
    exact (List.take_append_drop 15 pt).symm
  have hseq : loadSeq W pt
      = ((loadSeq W (pt.take 15)).load_block
          (pt.getD 15 ("", 0)).1 (pt.getD 15 ("", 0)).2 (-1)).1 := by
    conv_lhs => rw [hdecomp]
    simp [loadSeq, List.foldl_append]
  obtain ⟨g1, g2, g3, g4, g5, g6, g7, g8⟩ := loadSeq_fill (pt.take 15) W 1 [p0] hWlen
    (by simp [List.length_take]; omega) rfl hWvalid hWids rfl
    (by
      rw [List.singleton_append]
      exact List.Pairwise.sublist (List.Sublist.cons₂ p0 (List.take_sublist 15 pt)) hdist)
  have hseg15 : (1 : Nat) + (pt.take 15).length = 16 := by
    simp [List.length_take]
    omega
  rw [hseg15] at g2 g3 g4
  set mid := loadSeq W (pt.take 15) with hmid
  have hsegid : ∀ j, j < 16 → ([p0] ++ pt.take 15).getD j ("", 0) = (p0 :: pt).getD j ("", 0) := by
    intro j hj
    rw [List.singleton_append]
    cases j with
    | zero => rfl
    | succ m =>
      rw [List.getD_cons_succ, List.getD_cons_succ, getD_take _ _ _ _ (by omega)]
  have hmidvalid : ∀ j, j < 16 → (mid.pages.getD j (BufferPage.init j)).is_valid = true :=
    fun j hj => (g2 j hj).mpr hj
  have hmidfresh : ∀ j, j < 16 →
      ¬((mid.pages.getD j (BufferPage.init j)).filename = (pt.getD 15 ("", 0)).1
        ∧ (mid.pages.getD j (BufferPage.init j)).block_num
          = (((pt.getD 15 ("", 0)).2 : Nat) : Int)) := by
    intro j hj
    have hid := g3 j (by omega)
    rw [hsegid j hj] at hid
    apply pair_ne_of_idfields hid.1 hid.2
    cases j with
    | zero => exact hhead _ hq15
    | succ m =>
      rw [List.getD_cons_succ]
      exact hptget_ne m 15 (by omega) (by omega)
  have hevict := load_evict_step mid (pt.getD 15 ("", 0)).1 (pt.getD 15 ("", 0)).2
    g1 hmidvalid hmidfresh g4
  have hpage0 : mid.pages.getD 0 (BufferPage.init 0) = dpage := by
    rw [g7 0 (by omega)]
    rw [show W.pages = ((List.range 16).map BufferPage.init).set 0 dpage from rfl,
      getD_set_self _ _ _ _ (by simp)]
  rw [hseq, hevict]
  dsimp only
  rw [hpage0]
  have hdirty : dpage.is_dirty = true := rfl
  rw [hdirty]
  simp only [if_true, if_pos]
  have hwb : mid.writeback_count = 0 := by
    rw [g5]
  have hdisk : mid.disk = d := g6
  refine ⟨?_, ?_, ?_, ?_, ?_⟩
  · rw [hwb]
  · rw [show ((p0.2 : Int)).toNat = p0.2 from by omega]
    rw [readBlockN_writeBlockN]
    rw [List.take_of_length_le (by rw [ljust0_length _ _ (by simp [BLOCK_SIZE])])]
    exact ljust0_self _ _ (ljust0_length _ _ (by simp [BLOCK_SIZE]))
  · rw [getD_set_self _ _ _ _ (by rw [g1]; omega)]
  · rw [getD_set_self _ _ _ _ (by rw [g1]; omega)]
  · rw [getD_set_self _ _ _ _ (by rw [g1]; omega)]

/-- C7: starting from an empty pool of BUFFER_SIZE pages, sequentially
loading BUFFER_SIZE+1 pairwise-distinct (filename, block) pairs evicts
exactly the least-recently-touched page — page 0, the one holding the first
pair loaded (for example block 35 when loading blocks 35..51): afterwards
page 0 validly holds the 17th pair, pages 1-15 still hold pairs 2-16, no
page holds the first pair any more, and no write-back happened because
every page was clean; and when the first page was dirtied by a buffered
write before the 16 further loads, its eviction performs exactly one
write-back and the written contents are on the block store afterwards. -/
theorem c7_lru_eviction (d : Disk) (ps : List (String × Nat)) (wdata : List Nat)
    (hlen : ps.length = BUFFER_SIZE + 1) (hdist : ps.Pairwise (· ≠ ·)) :
    ((loadSeq (BufState.init BUFFER_SIZE d) ps).writeback_count = 0
    ∧ ((loadSeq (BufState.init BUFFER_SIZE d) ps).pages.getD 0 (BufferPage.init 0)).is_valid
        = true
    ∧ ((loadSeq (BufState.init BUFFER_SIZE d) ps).pages.getD 0 (BufferPage.init 0)).filename
        = (ps.getD 16 ("", 0)).1
    ∧ ((loadSeq (BufState.init BUFFER_SIZE d) ps).pages.getD 0 (BufferPage.init 0)).block_num
        = (((ps.getD 16 ("", 0)).2 : Nat) : Int)
    ∧ (∀ j, 1 ≤ j → j < 16 →
        ((loadSeq (BufState.init BUFFER_SIZE d) ps).pages.getD j
            (BufferPage.init j)).is_valid = true
        ∧ ((loadSeq (BufState.init BUFFER_SIZE d) ps).pages.getD j
            (BufferPage.init j)).filename = (ps.getD j ("", 0)).1
        ∧ ((loadSeq (BufState.init BUFFER_SIZE d) ps).pages.getD j
            (BufferPage.init j)).block_num = (((ps.getD j ("", 0)).2 : Nat) : Int))
    ∧ (∀ j, j < 16 →
        ¬(((loadSeq (BufState.init BUFFER_SIZE d) ps).pages.getD j
              (BufferPage.init j)).filename = (ps.getD 0 ("", 0)).1
          ∧ ((loadSeq (BufState.init BUFFER_SIZE d) ps).pages.getD j
              (BufferPage.init j)).block_num = (((ps.getD 0 ("", 0)).2 : Nat) : Int))))
    ∧ ((loadSeq ((((BufState.init BUFFER_SIZE d).load_block (ps.getD 0 ("", 0)).1
          (ps.getD 0 ("", 0)).2 (-1)).1).write_block (ps.getD 0 ("", 0)).1
          (ps.getD 0 ("", 0)).2 wdata (-1)).1 (ps.drop 1)).writeback_count = 1
    ∧ (loadSeq ((((BufState.init BUFFER_SIZE d).load_block (ps.getD 0 ("", 0)).1
          (ps.getD 0 ("", 0)).2 (-1)).1).write_block (ps.getD 0 ("", 0)).1
          (ps.getD 0 ("", 0)).2 wdata (-1)).1 (ps.drop 1)).disk.readBlockN
          (ps.getD 0 ("", 0)).2 = ljust0 (wdata.take BLOCK_SIZE) BLOCK_SIZE
    ∧ ((loadSeq ((((BufState.init BUFFER_SIZE d).load_block (ps.getD 0 ("", 0)).1
          (ps.getD 0 ("", 0)).2 (-1)).1).write_block (ps.getD 0 ("", 0)).1
          (ps.getD 0 ("", 0)).2 wdata (-1)).1 (ps.drop 1)).pages.getD 0
          (BufferPage.init 0)).is_valid = true
    ∧ ((loadSeq ((((BufState.init BUFFER_SIZE d).load_block (ps.getD 0 ("", 0)).1
          (ps.getD 0 ("", 0)).2 (-1)).1).write_block (ps.getD 0 ("", 0)).1
          (ps.getD 0 ("", 0)).2 wdata (-1)).1 (ps.drop 1)).pages.getD 0
          (BufferPage.init 0)).filename = (ps.getD 16 ("", 0)).1
    ∧ ((loadSeq ((((BufState.init BUFFER_SIZE d).load_block (ps.getD 0 ("", 0)).1
          (ps.getD 0 ("", 0)).2 (-1)).1).write_block (ps.getD 0 ("", 0)).1
          (ps.getD 0 ("", 0)).2 wdata (-1)).1 (ps.drop 1)).pages.getD 0
          (BufferPage.init 0)).block_num = (((ps.getD 16 ("", 0)).2 : Nat) : Int)) :=
  ⟨c7_variantA d ps hlen hdist, c7_variantB d ps wdata hlen hdist⟩

/-- Witness for C7: the eviction theorem applied to Scenario B of the spec —
pool size 16 over a fresh disk, loading blocks 35..51 of one file, with the
length and distinctness hypotheses discharged by computation. -/
theorem c7_lru_eviction_witness :
    ((loadSeq (BufState.init BUFFER_SIZE Disk.create) c7Pairs).writeback_count = 0
    ∧ ((loadSeq (BufState.init BUFFER_SIZE Disk.create) c7Pairs).pages.getD 0
        (BufferPage.init 0)).is_valid = true
    ∧ ((loadSeq (BufState.init BUFFER_SIZE Disk.create) c7Pairs).pages.getD 0
        (BufferPage.init 0)).filename = (c7Pairs.getD 16 ("", 0)).1
    ∧ ((loadSeq (BufState.init BUFFER_SIZE Disk.create) c7Pairs).pages.getD 0
        (BufferPage.init 0)).block_num = (((c7Pairs.getD 16 ("", 0)).2 : Nat) : Int)
    ∧ (∀ j, 1 ≤ j → j < 16 →
        ((loadSeq (BufState.init BUFFER_SIZE Disk.create) c7Pairs).pages.getD j
            (BufferPage.init j)).is_valid = true
        ∧ ((loadSeq (BufState.init BUFFER_SIZE Disk.create) c7Pairs).pages.getD j
            (BufferPage.init j)).filename = (c7Pairs.getD j ("", 0)).1
        ∧ ((loadSeq (BufState.init BUFFER_SIZE Disk.create) c7Pairs).pages.getD j
            (BufferPage.init j)).block_num = (((c7Pairs.getD j ("", 0)).2 : Nat) : Int))
    ∧ (∀ j, j < 16 →
        ¬(((loadSeq (BufState.init BUFFER_SIZE Disk.create) c7Pairs).pages.getD j
              (BufferPage.init j)).filename = (c7Pairs.getD 0 ("", 0)).1
          ∧ ((loadSeq (BufState.init BUFFER_SIZE Disk.create) c7Pairs).pages.getD j
              (BufferPage.init j)).block_num = (((c7Pairs.getD 0 ("", 0)).2 : Nat) : Int))))
    ∧ ((loadSeq ((((BufState.init BUFFER_SIZE Disk.create).load_block
          (c7Pairs.getD 0 ("", 0)).1 (c7Pairs.getD 0 ("", 0)).2 (-1)).1).write_block
          (c7Pairs.getD 0 ("", 0)).1 (c7Pairs.getD 0 ("", 0)).2 c7WriteData (-1)).1
          (c7Pairs.drop 1)).writeback_count = 1
    ∧ (loadSeq ((((BufState.init BUFFER_SIZE Disk.create).load_block
          (c7Pairs.getD 0 ("", 0)).1 (c7Pairs.getD 0 ("", 0)).2 (-1)).1).write_block
          (c7Pairs.getD 0 ("", 0)).1 (c7Pairs.getD 0 ("", 0)).2 c7WriteData (-1)).1
          (c7Pairs.drop 1)).disk.readBlockN (c7Pairs.getD 0 ("", 0)).2
          = ljust0 (c7WriteData.take BLOCK_SIZE) BLOCK_SIZE
    ∧ ((loadSeq ((((BufState.init BUFFER_SIZE Disk.create).load_block
          (c7Pairs.getD 0 ("", 0)).1 (c7Pairs.getD 0 ("", 0)).2 (-1)).1).write_block
          (c7Pairs.getD 0 ("", 0)).1 (c7Pairs.getD 0 ("", 0)).2 c7WriteData (-1)).1
          (c7Pairs.drop 1)).pages.getD 0 (BufferPage.init 0)).is_valid = true
    ∧ ((loadSeq ((((BufState.init BUFFER_SIZE Disk.create).load_block
          (c7Pairs.getD 0 ("", 0)).1 (c7Pairs.getD 0 ("", 0)).2 (-1)).1).write_block
          (c7Pairs.getD 0 ("", 0)).1 (c7Pairs.getD 0 ("", 0)).2 c7WriteData (-1)).1
          (c7Pairs.drop 1)).pages.getD 0 (BufferPage.init 0)).filename
          = (c7Pairs.getD 16 ("", 0)).1
    ∧ ((loadSeq ((((BufState.init BUFFER_SIZE Disk.create).load_block
          (c7Pairs.getD 0 ("", 0)).1 (c7Pairs.getD 0 ("", 0)).2 (-1)).1).write_block
          (c7Pairs.getD 0 ("", 0)).1 (c7Pairs.getD 0 ("", 0)).2 c7WriteData (-1)).1
          (c7Pairs.drop 1)).pages.getD 0 (BufferPage.init 0)).block_num
          = (((c7Pairs.getD 16 ("", 0)).2 : Nat) : Int)) :=
  c7_lru_eviction Disk.create c7Pairs c7WriteData (by decide) (by decide)

/-! ## Bitmap counting lemmas (claim C9) -/

theorem testBit_clear_self (x i : Nat) (hi : i < 8) :
    (x &&& (255 ^^^ (1 <<< i))).testBit i = false := by
  rw [Nat.testBit_and, Nat.testBit_xor, Nat.shiftLeft_eq, one_mul,
    show (255 : Nat) = 2 ^ 8 - 1 from rfl, Nat.testBit_two_pow_sub_one,
    Nat.testBit_two_pow]
  simp [hi]

theorem testBit_clear_ne (x i j : Nat) (hi : i < 8) (hj : j < 8) (hij : j ≠ i) :
    (x &&& (255 ^^^ (1 <<< i))).testBit j = x.testBit j := by
  rw [Nat.testBit_and, Nat.testBit_xor, Nat.shiftLeft_eq, one_mul,
    show (255 : Nat) = 2 ^ 8 - 1 from rfl, Nat.testBit_two_pow_sub_one,
    Nat.testBit_two_pow]
  simp [hj]
  intro _
  omega

theorem is_free_eq_not_testBit (bm : Bitmap) (m : Int) (h0 : 0 ≤ m)
    (h1 : m < (bm.total_blocks : Int)) :
    bm.is_free m = !(bm.bits.getD (m.toNat / 8) 0).testBit (m.toNat % 8) := by
  unfold Bitmap.is_free
  rw [if_pos ⟨h0, h1⟩]
  show ((bm.bits.getD (m.toNat / 8) 0) &&& (1 <<< (m.toNat % 8)) == 0)
    = !(bm.bits.getD (m.toNat / 8) 0).testBit (m.toNat % 8)
  rw [Nat.shiftLeft_eq, one_mul, Nat.and_two_pow]
  cases hb : (bm.bits.getD (m.toNat / 8) 0).testBit (m.toNat % 8) <;>
    simp [hb, (Nat.two_pow_pos (m.toNat % 8)).ne.symm]

theorem set_free_is_free_self (bm : Bitmap) (b : Int) (h0 : 0 ≤ b)
    (h1 : b < (bm.total_blocks : Int)) (hlen : b.toNat / 8 < bm.bits.length) :
    (bm.set_free b).is_free b = true := by
  unfold Bitmap.set_free
  rw [if_pos ⟨h0, h1⟩]
  rw [is_free_eq_not_testBit _ b h0 (by simpa using h1)]
  dsimp only
  rw [getD_set_self _ _ _ _ hlen]
  rw [testBit_clear_self _ _ (by omega)]
  rfl

theorem set_free_is_free_ne (bm : Bitmap) (b m : Int) (hne : m ≠ b) :
    (bm.set_free b).is_free m = bm.is_free m := by
  unfold Bitmap.set_free
  by_cases hbr : 0 ≤ b ∧ b < (bm.total_blocks : Int)
  · rw [if_pos hbr]
    by_cases hmr : 0 ≤ m ∧ m < (bm.total_blocks : Int)
    · rw [is_free_eq_not_testBit _ m hmr.1 (by simpa using hmr.2),
        is_free_eq_not_testBit _ m hmr.1 hmr.2]
      dsimp only
      by_cases hbyte : b.toNat / 8 = m.toNat / 8
      · rw [← hbyte]
        by_cases hblen : b.toNat / 8 < bm.bits.length
        · rw [getD_set_self _ _ _ _ hblen]
          rw [testBit_clear_ne _ _ _ (by omega) (by omega) (by omega)]
        · rw [List.set_eq_of_length_le (by omega)]
      · rw [getD_set_ne _ _ _ _ _ hbyte]
    · unfold Bitmap.is_free
      rw [if_neg hmr, if_neg (by simpa using hmr)]
  · rw [if_neg hbr]

theorem set_free_total (bm : Bitmap) (b : Int) :
    (bm.set_free b).total_blocks = bm.total_blocks := by
  unfold Bitmap.set_free
  split <;> rfl

theorem set_free_bits_length (bm : Bitmap) (b : Int) :
    (bm.set_free b).bits.length = bm.bits.length := by
  unfold Bitmap.set_free
  split
  · exact List.length_set _ _ _
  · rfl

theorem countP_update_one {α : Type} [DecidableEq α] (l : List α) (f g : α → Bool) (a : α) :
    (∀ x ∈ l, x ≠ a → f x = g x) → f a = true → g a = false → l.count a = 1 →
    l.countP f = l.countP g + 1 := by
  induction l with
  | nil =>
    intro _ _ _ hcount
    simp at hcount
  | cons x xs ih =>
    intro hfg hfa hga hcount
    by_cases hxa : x = a
    · subst hxa
      have hxs : xs.count x = 0 := by
        rw [List.count_cons_self] at hcount
        omega
      have hnomem : x ∉ xs := by
        intro hmem
        rw [List.count_eq_zero] at hxs
        exact hxs hmem
      have heq : xs.countP f = xs.countP g := by
        apply List.countP_congr
        intro y hy
        have hyx : y ≠ x := fun h => hnomem (h ▸ hy)
        rw [hfg y (List.mem_cons_of_mem _ hy) hyx]
      rw [List.countP_cons, List.countP_cons, hfa, hga, heq]
      simp
    · have hcx : xs.count a = 1 := by
        rw [List.count_cons_of_ne (fun h => hxa h.symm)] at hcount
        exact hcount
      have hfx : f x = g x := hfg x (List.mem_cons_self x xs) hxa
      rw [List.countP_cons, List.countP_cons, hfx,
        ih (fun y hy hya => hfg y (List.mem_cons_of_mem _ hy) hya) hfa hga hcx]
      omega

theorem free_count_set_free (bm : Bitmap) (b : Int)
    (hb0 : (DATA_START : Int) ≤ b) (hb1 : b < (TOTAL_BLOCKS : Int))
    (htot : bm.total_blocks = TOTAL_BLOCKS) (hlen : bm.bits.length = 128)
    (hused : bm.is_free b = false) :
    (bm.set_free b).free_blocks_count = bm.free_blocks_count + 1 := by
  have hD : (DATA_START : Int) = 35 := rfl
  have hT : (TOTAL_BLOCKS : Int) = 1024 := rfl
  have hDn : DATA_START = 35 := rfl
  have hTn : TOTAL_BLOCKS = 1024 := rfl
  have hback : ((b.toNat : Nat) : Int) = b := by omega
  unfold Bitmap.free_blocks_count
  rw [set_free_total, htot]
  apply countP_update_one _ _ _ b.toNat
  · intro x hx hxb
    apply set_free_is_free_ne
    intro hcast
    apply hxb
    omega
  · show (bm.set_free b).is_free ((b.toNat : Nat) : Int) = true
    rw [hback]
    refine set_free_is_free_self bm b (by omega) (by rw [htot]; omega) (by rw [hlen]; omega)
  · show bm.is_free ((b.toNat : Nat) : Int) = false
    rw [hback]
    exact hused
  · exact List.count_eq_one_of_mem (List.nodup_range' _ _ _ (by norm_num))
      (by rw [List.mem_range'_1]; constructor <;> omega)

/-! ## Delete/release lemmas (claim C9) -/

theorem findIdx?_before_false {α : Type} (p : α → Bool) (l : List α) (i : Nat) (d : α)
    (h : l.findIdx? p = some i) : ∀ j, j < i → p (l.getD j d) = false := by
  obtain ⟨hlt, hfi⟩ := List.findIdx?_eq_some_iff_findIdx_eq.mp h
  intro j hj
  have hjl : j < l.length := by omega
  have hj2 : j < l.findIdx p := by omega
  have hnp := List.not_of_lt_findIdx hj2
  rw [List.getD_eq_getElem l d hjl]
  simpa using hnp

theorem findIdx?_set_same {α : Type} (p : α → Bool) (l : List α) (i : Nat) (a d : α)
    (h : l.findIdx? p = some i) (ha : p a = true) :
    (l.set i a).findIdx? p = some i := by
  obtain ⟨hlt, hp⟩ := findIdx?_some_facts p l i d h
  apply findIdx?_eq_some_of_first _ _ _ d
  · rw [List.length_set]
    exact hlt
  · intro j hj
    rw [List.getD_eq_getElem?_getD, List.getElem?_set_ne (by omega : i ≠ j),
      ← List.getD_eq_getElem?_getD]
    exact findIdx?_before_false p l i d h j hj
  · rw [getD_set_self _ _ _ _ hlt]
    exact ha

theorem readBlockN_writeBlockN_lt (d : Disk) (n k : Nat) (bytes : List Nat) (h : n < k) :
    (d.writeBlockN n bytes).readBlockN k = d.readBlockN k := by
  simp only [Disk.writeBlockN, Disk.readBlockN, Disk.readBytes]
  have hlen : min BLOCK_SIZE (max d.size (n * BLOCK_SIZE + BLOCK_SIZE) - k * BLOCK_SIZE)
      = min BLOCK_SIZE (d.size - k * BLOCK_SIZE) := by
    simp only [BLOCK_SIZE]
    omega
  rw [hlen]
  apply List.map_congr_left
  intro i hi
  rw [List.mem_range] at hi
  rw [if_neg (by simp only [BLOCK_SIZE] at hi ⊢; omega),
    if_pos (by simp only [BLOCK_SIZE] at hi ⊢; omega)]

theorem readBlockN_foldl_inode_writes (f : Nat → List Nat) (k : Nat) (hk : 35 ≤ k) :
    ∀ (L : List Nat), (∀ i ∈ L, i < MAX_INODES) → ∀ (d : Disk),
    (L.foldl (fun dd i => dd.writeBlockN (INODE_START + i) (f i)) d).readBlockN k
      = d.readBlockN k := by
  intro L
  induction L with
  | nil =>
    intro _ d
    rfl
  | cons a t ih =>
    intro hmem d
    rw [List.foldl_cons, ih (fun i hi => hmem i (List.mem_cons_of_mem _ hi))]
    apply readBlockN_writeBlockN_lt
    have ha := hmem a (List.mem_cons_self a t)
    simp only [INODE_START, MAX_INODES] at *
    omega

theorem readBlockN_save_inodes (fs : FSState) (k : Nat) (hk : 35 ≤ k) :
    (fs.save_inodes).disk.readBlockN k = fs.disk.readBlockN k := by
  have h := readBlockN_foldl_inode_writes
    (fun i => (fs.inodes.getD i INode.init).to_bytes) k hk (List.range MAX_INODES)
    (fun i hi => List.mem_range.mp hi) fs.disk
  exact h

theorem file_blocks_eq_of_read_eq (fs1 fs2 : FSState) (ino1 ino2 : INode)
    (hd : ino1.direct_blocks = ino2.direct_blocks)
    (hi : ino1.indirect_block = ino2.indirect_block)
    (hr : 0 ≤ ino1.indirect_block →
      fs1.disk.readBlockN ino1.indirect_block.toNat
        = fs2.disk.readBlockN ino2.indirect_block.toNat) :
    fs1.file_blocks ino1 = fs2.file_blocks ino2 := by
  unfold FSState.file_blocks
  by_cases h : 0 ≤ ino1.indirect_block
  · rw [hd, if_pos h, if_pos (hi ▸ h), hr h, hi]
  · rw [hd, if_neg h, if_neg (hi ▸ h)]

theorem file_blocks_length (fs : FSState) (ino : INode) :
    (fs.file_blocks ino).length = fs.allocated_block_count ino := by
  unfold FSState.file_blocks FSState.allocated_block_count
  by_cases h : 0 ≤ ino.indirect_block
  · rw [if_pos h, if_pos h]
    simp only [List.length_append, List.length_cons, List.length_nil]
    omega
  · rw [if_neg h, if_neg h]
    simp only [List.append_nil]

theorem free_count_free_list (bs : List Int) : ∀ (bm : Bitmap),
    (∀ b ∈ bs, (DATA_START : Int) ≤ b ∧ b < (TOTAL_BLOCKS : Int) ∧ bm.is_free b = false) →
    bs.Nodup → bm.total_blocks = TOTAL_BLOCKS → bm.bits.length = 128 →
    (bs.foldl (fun m x => m.set_free x) bm).free_blocks_count
      = bm.free_blocks_count + bs.length := by
  induction bs with
  | nil =>
    intro bm _ _ _ _
    rfl
  | cons b t ih =>
    intro bm hall hnd htot hlen
    have hb := hall b (List.mem_cons_self b t)
    rw [List.foldl_cons]
    have hall2 : ∀ x ∈ t, (DATA_START : Int) ≤ x ∧ x < (TOTAL_BLOCKS : Int)
        ∧ (bm.set_free b).is_free x = false := by
      intro x hx
      obtain ⟨h1, h2, h3⟩ := hall x (List.mem_cons_of_mem _ hx)
      refine ⟨h1, h2, ?_⟩
      have hxb : x ≠ b := by
        intro he
        subst he
        exact (List.nodup_cons.mp hnd).1 hx
      rw [set_free_is_free_ne _ _ _ hxb]
      exact h3
    rw [ih (bm.set_free b) hall2 (List.Nodup.of_cons hnd)
      (by rw [set_free_total, htot]) (by rw [set_free_bits_length, hlen])]
    rw [free_count_set_free bm b hb.1 hb.2.1 htot hlen hb.2.2]
    have hlc : (b :: t).length = t.length + 1 := rfl
    omega

theorem delete_file_busy (fs : FSState) (fname : List Nat) (i : Nat)
    (hfind : fs.find_inode_idx fname = some i)
    (hpos : 0 < (fs.inodes.getD i INode.init).ref_count) :
    fs.delete_file fname
      = (fs, false, "文件 '" ++ bytesToString fname ++ "' 正在被使用，无法删除") := by
  unfold FSState.delete_file
  rw [hfind]
  dsimp only
  rw [if_pos hpos]

theorem release_file_pos (fs : FSState) (fname : List Nat) (i : Nat)
    (hfind : fs.find_inode_idx fname = some i)
    (hpos : 0 < (fs.inodes.getD i INode.init).ref_count) :
    fs.release_file fname
      = (({ fs with inodes := (fs.inodes.set i
            ({ fs.inodes.getD i INode.init with
              ref_count := (fs.inodes.getD i INode.init).ref_count - 1 })) }).save_inodes,
        true) := by
  unfold FSState.release_file
  rw [hfind]
  dsimp only
  rw [if_pos hpos]

theorem delete_file_free_path (fs : FSState) (fname : List Nat) (i : Nat)
    (hfind : fs.find_inode_idx fname = some i)
    (hneg : ¬ 0 < (fs.inodes.getD i INode.init).ref_count) :
    (fs.delete_file fname).2.1 = true
    ∧ (fs.delete_file fname).1.bitmap
      = (fs.file_blocks (fs.inodes.getD i INode.init)).foldl
          (fun m x => m.set_free x) fs.bitmap := by
  unfold FSState.delete_file
  rw [hfind]
  dsimp only
  rw [if_neg hneg]
  refine ⟨rfl, ?_⟩
  dsimp only [FSState.save_superblock, FSState.save_bitmap, FSState.save_inodes]
  unfold FSState.file_blocks
  by_cases h : 0 ≤ (fs.inodes.getD i INode.init).indirect_block
  · rw [if_pos h, if_pos h, List.foldl_append, List.foldl_append]
    rfl
  · rw [if_neg h, if_neg h, List.append_nil]

/-- **C9**: for an existing file whose reference count is 1, `delete_file`
reports the busy failure and returns the state completely unchanged (no
block freed, inode untouched); one `release_file` succeeds, bringing the
count to 0, after which `delete_file` succeeds and the number of free
blocks in the bitmap grows by exactly the file's allocated block count
(direct blocks, indirect-indexed blocks and the indirect block itself),
provided the file's blocks are consistently allocated on the volume. -/
theorem c9_busy_then_delete_frees_exact
    (fs : FSState) (fname : List Nat) (i : Nat)
    (hfind : fs.find_inode_idx fname = some i)
    (href : (fs.inodes.getD i INode.init).ref_count = 1)
    (hwa : fs.well_allocated (fs.inodes.getD i INode.init)) :
    fs.delete_file fname
      = (fs, false, "文件 '" ++ bytesToString fname ++ "' 正在被使用，无法删除")
    ∧ (fs.release_file fname).2 = true
    ∧ ((fs.release_file fname).1.delete_file fname).2.1 = true
    ∧ ((fs.release_file fname).1.delete_file fname).1.bitmap.free_blocks_count
        = fs.bitmap.free_blocks_count
          + fs.allocated_block_count (fs.inodes.getD i INode.init) := by
  have hfind0 : fs.inodes.findIdx? (fun x => x.is_used && x.filename == fname) = some i :=
    hfind
  obtain ⟨hlt, hp⟩ := findIdx?_some_facts _ _ _ INode.init hfind0
  have hpos : 0 < (fs.inodes.getD i INode.init).ref_count := by
    rw [href]
    decide
  have hrel := release_file_pos fs fname i hfind hpos
  have hfind2 : (fs.release_file fname).1.find_inode_idx fname = some i := by
    rw [hrel]
    exact findIdx?_set_same _ _ _ _ INode.init hfind0 hp
  have hgd : (fs.release_file fname).1.inodes.getD i INode.init
      = ({ fs.inodes.getD i INode.init with
          ref_count := (fs.inodes.getD i INode.init).ref_count - 1 }) := by
    rw [hrel]
    exact getD_set_self _ _ _ _ hlt
  have hneg : ¬ 0 < ((fs.release_file fname).1.inodes.getD i INode.init).ref_count := by
    rw [hgd]
    show ¬ 0 < (fs.inodes.getD i INode.init).ref_count - 1
    rw [href]
    decide
  have hfree := delete_file_free_path (fs.release_file fname).1 fname i hfind2 hneg
  have hbmX : (fs.release_file fname).1.bitmap = fs.bitmap := by
    rw [hrel]
    rfl
  have hfb : (fs.release_file fname).1.file_blocks
      ((fs.release_file fname).1.inodes.getD i INode.init)
      = fs.file_blocks (fs.inodes.getD i INode.init) := by
    rw [hgd]
    apply file_blocks_eq_of_read_eq
    · rfl
    · rfl
    · intro hpos2
      have hmem : (fs.inodes.getD i INode.init).indirect_block
          ∈ fs.file_blocks (fs.inodes.getD i INode.init) := by
        unfold FSState.file_blocks
        rw [if_pos (show (0:Int) ≤ (fs.inodes.getD i INode.init).indirect_block from hpos2)]
        exact List.mem_append_right _
          (List.mem_append_right _ (List.mem_singleton_self _))
      have h35i := (hwa.1 _ hmem).1
      have hD : (DATA_START : Int) = 35 := rfl
      have h35 : 35 ≤ (fs.inodes.getD i INode.init).indirect_block.toNat := by omega
      rw [hrel]
      exact readBlockN_save_inodes _ _ h35
  have hcount := free_count_free_list (fs.file_blocks (fs.inodes.getD i INode.init))
    fs.bitmap hwa.1 hwa.2.1 hwa.2.2.1 hwa.2.2.2
  refine ⟨delete_file_busy fs fname i hfind hpos, by rw [hrel], hfree.1, ?_⟩
  rw [hfree.2, hfb, hbmX, hcount, file_blocks_length]

/-- Witness for C9 at the concrete scenario: 700-byte file on a fresh
volume, opened once. -/
theorem c9_busy_then_delete_frees_exact_witness :
    (c9Fs.inodes.getD 0 INode.init).ref_count = 1
    ∧ (c9Fs.delete_file [102]
        = (c9Fs, false, "文件 '" ++ bytesToString [102] ++ "' 正在被使用，无法删除")
      ∧ (c9Fs.release_file [102]).2 = true
      ∧ ((c9Fs.release_file [102]).1.delete_file [102]).2.1 = true
      ∧ ((c9Fs.release_file [102]).1.delete_file [102]).1.bitmap.free_blocks_count
          = c9Fs.bitmap.free_blocks_count
            + c9Fs.allocated_block_count (c9Fs.inodes.getD 0 INode.init)) :=
  ⟨by decide, c9_busy_then_delete_frees_exact c9Fs [102] 0 (by decide) (by decide)
    (by unfold FSState.well_allocated; decide)⟩

/-! ## Reference-count invariant (claim C10) -/

theorem refNonneg_set_of (l : List INode) (i : Nat) (a : INode)
    (h : ∀ x ∈ l, 0 ≤ x.ref_count) (ha : 0 ≤ a.ref_count) :
    ∀ x ∈ l.set i a, 0 ≤ x.ref_count := by
  intro x hx
  rcases List.mem_or_eq_of_mem_set hx with hmem | heq
  · exact h x hmem
  · rw [heq]
    exact ha

theorem getD_ref_nonneg (l : List INode) (h : ∀ x ∈ l, 0 ≤ x.ref_count) (i : Nat) :
    0 ≤ (l.getD i INode.init).ref_count := by
  by_cases hi : i < l.length
  · rw [List.getD_eq_getElem l _ hi]
    exact h _ (List.getElem_mem hi)
  · rw [List.getD_eq_default _ _ (by omega)]
    decide

theorem refNonneg_allocate (fs : FSState) (now : Nat) (fs1 : FSState) (i : Nat)
    (halloc : fs.allocate_inode now = some (fs1, i))
    (h : fs.RefNonneg) : fs1.RefNonneg := by
  unfold FSState.allocate_inode at halloc
  cases hf : fs.inodes.findIdx? (fun ino => !ino.is_used) with
  | none =>
    rw [hf] at halloc
    simp at halloc
  | some j =>
    rw [hf] at halloc
    simp only [Option.some.injEq, Prod.mk.injEq] at halloc
    obtain ⟨h1, h2⟩ := halloc
    rw [← h1]
    intro x hx
    refine refNonneg_set_of fs.inodes j _ h ?_ x hx
    exact getD_ref_nonneg fs.inodes h j

theorem refNonneg_finish_create (fs : FSState) (i : Nat) (fname content : List Nat)
    (perm : Nat) (bl : List Int) (h : fs.RefNonneg) :
    (fs.finish_create i fname content perm bl).1.RefNonneg := by
  unfold FSState.finish_create
  dsimp only [FSState.save_superblock, FSState.save_bitmap, FSState.save_inodes]
  intro x hx
  refine refNonneg_set_of fs.inodes i _ h ?_ x hx
  show (0 : Int) ≤ 0
  decide

theorem refNonneg_finish_write (fs : FSState) (i : Nat) (fname content : List Nat)
    (now : Nat) (bl : List Int) (h : fs.RefNonneg) :
    (fs.finish_write i fname content now bl).1.RefNonneg := by
  unfold FSState.finish_write
  dsimp only [FSState.save_superblock, FSState.save_bitmap, FSState.save_inodes]
  intro x hx
  refine refNonneg_set_of fs.inodes i _ h ?_ x hx
  exact getD_ref_nonneg fs.inodes h i

set_option maxHeartbeats 2000000 in
theorem refNonneg_create (fs : FSState) (fname content : List Nat) (perm now : Nat)
    (h : fs.RefNonneg) : (fs.create_file fname content perm now).1.RefNonneg := by
  unfold FSState.create_file
  by_cases hex : fs.inodes.any (fun ino => ino.is_used && ino.filename == fname)
  · rw [if_pos hex]
    exact h
  · rw [if_neg hex]
    cases halloc : fs.allocate_inode now with
    | none => exact h
    | some pr =>
      obtain ⟨fs1, i⟩ := pr
      have h1 : fs1.RefNonneg := refNonneg_allocate fs now fs1 i halloc h
      dsimp only
      repeat' split
      all_goals first
        | exact h1
        | (apply refNonneg_finish_create
           intro x hx
           refine refNonneg_set_of fs1.inodes i _ h1 ?_ x hx
           exact getD_ref_nonneg fs1.inodes h1 i)
        | (intro x hx
           refine refNonneg_set_of fs1.inodes i _ h1 ?_ x hx
           exact getD_ref_nonneg fs1.inodes h1 i)

theorem refNonneg_ite (c : Prop) [Decidable c] (a b : FSState × PyResult)
    (ha : a.1.RefNonneg) (hb : b.1.RefNonneg) : (if c then a else b).1.RefNonneg := by
  split
  · exact ha
  · exact hb

theorem refNonneg_optmatch (o : Option (List Nat)) (f : List Nat → FSState × PyResult)
    (z : FSState × PyResult) (hz : z.1.RefNonneg) (hf : ∀ a, (f a).1.RefNonneg) :
    (match o with | none => z | some a => f a).1.RefNonneg := by
  cases o with
  | none => exact hz
  | some a => exact hf a

set_option maxHeartbeats 4000000 in
theorem refNonneg_write (fs : FSState) (fname content : List Nat) (now : Nat)
    (h : fs.RefNonneg) : (fs.write_file fname content now).1.RefNonneg := by
  unfold FSState.write_file
  cases hf : fs.find_inode_idx fname with
  | none => exact h
  | some i =>
    dsimp only
    repeat first
      | exact h
      | (apply refNonneg_finish_write
         intro x hx
         refine refNonneg_set_of fs.inodes i _ h ?_ x hx
         exact getD_ref_nonneg fs.inodes h i)
      | apply refNonneg_ite
      | apply refNonneg_optmatch
      | (intro x hx
         refine refNonneg_set_of fs.inodes i _ h ?_ x hx
         exact getD_ref_nonneg fs.inodes h i)
      | intro a

theorem refNonneg_delete (fs : FSState) (fname : List Nat)
    (h : fs.RefNonneg) : (fs.delete_file fname).1.RefNonneg := by
  unfold FSState.delete_file
  cases hf : fs.find_inode_idx fname with
  | none => exact h
  | some i =>
    dsimp only
    split
    · exact h
    · dsimp only [FSState.save_superblock, FSState.save_bitmap, FSState.save_inodes]
      intro x hx
      refine refNonneg_set_of fs.inodes i _ h ?_ x hx
      show (0 : Int) ≤ 0
      decide

theorem refNonneg_acquire (fs : FSState) (fname : List Nat)
    (h : fs.RefNonneg) : (fs.acquire_file fname).1.RefNonneg := by
  unfold FSState.acquire_file
  cases hf : fs.find_inode_idx fname with
  | some i =>
    dsimp only [FSState.save_inodes]
    intro x hx
    refine refNonneg_set_of fs.inodes i _ h ?_ x hx
    show 0 ≤ (fs.inodes.getD i INode.init).ref_count + 1
    have := getD_ref_nonneg fs.inodes h i
    omega
  | none => exact h

theorem refNonneg_release (fs : FSState) (fname : List Nat)
    (h : fs.RefNonneg) : (fs.release_file fname).1.RefNonneg := by
  unfold FSState.release_file
  cases hf : fs.find_inode_idx fname with
  | some i =>
    dsimp only
    split
    · rename_i hc
      dsimp only [FSState.save_inodes]
      intro x hx
      refine refNonneg_set_of fs.inodes i _ h ?_ x hx
      show 0 ≤ (fs.inodes.getD i INode.init).ref_count - 1
      omega
    · exact h
  | none => exact h

theorem refNonneg_reach (fs : FSState) (h : FSReach fs) : fs.RefNonneg := by
  induction h with
  | format =>
    intro x hx
    have hx2 : x ∈ (List.range MAX_INODES).map
        (fun i => { INode.init with inode_id := i }) := hx
    obtain ⟨j, hj1, hj2⟩ := List.mem_map.mp hx2
    rw [← hj2]
    show (0 : Int) ≤ 0
    decide
  | create fs f c p n hr ih => exact refNonneg_create fs f c p n ih
  | write fs f c n hr ih => exact refNonneg_write fs f c n ih
  | delete fs f hr ih => exact refNonneg_delete fs f ih
  | acquire fs f hr ih => exact refNonneg_acquire fs f ih
  | release fs f hr ih => exact refNonneg_release fs f ih

theorem release_file_none (fs : FSState) (fname : List Nat)
    (h : fs.find_inode_idx fname = none) : fs.release_file fname = (fs, false) := by
  unfold FSState.release_file
  rw [h]

theorem release_file_zero (fs : FSState) (fname : List Nat) (i : Nat)
    (hfind : fs.find_inode_idx fname = some i)
    (h0 : ¬ 0 < (fs.inodes.getD i INode.init).ref_count) :
    fs.release_file fname = (fs, false) := by
  unfold FSState.release_file
  rw [hfind]
  dsimp only
  rw [if_neg h0]

/-- **C10**: in every filesystem state reachable from a freshly formatted
volume by any sequence of create/write/delete/acquire/release operations,
every inode's reference count is non-negative; moreover `release_file`
returns `False` and leaves the state untouched when the file is absent or
its reference count is already 0, so no operation sequence can drive a
count below zero. -/
theorem c10_ref_count_nonneg (fs : FSState) (h : FSReach fs) :
    (∀ ino ∈ fs.inodes, 0 ≤ ino.ref_count)
    ∧ (∀ fname, fs.find_inode_idx fname = none → fs.release_file fname = (fs, false))
    ∧ (∀ fname i, fs.find_inode_idx fname = some i →
        (fs.inodes.getD i INode.init).ref_count = 0 →
        fs.release_file fname = (fs, false)) := by
  refine ⟨refNonneg_reach fs h, ?_, ?_⟩
  · intro fname hnone
    exact release_file_none fs fname hnone
  · intro fname i hfind h0
    refine release_file_zero fs fname i hfind ?_
    rw [h0]
    decide

/-- Witness for C10 at the freshly formatted volume, reachable in one step. -/
theorem c10_ref_count_nonneg_witness :
    FSReach FSState.format ∧ (∀ ino ∈ FSState.format.inodes, 0 ≤ ino.ref_count) :=
  ⟨FSReach.format, (c10_ref_count_nonneg FSState.format FSReach.format).1⟩
